import Mathlib

/-!
Network bridge (`src/network-bridge.js`).

A shallow embedding of the `NetworkBridge` object: per-peer connection records, the
four-adapter delivery router, the offline message queue, the snapshot export and the
merge of a remote snapshot into the three `localStorage` databases.

Conventions of the embedding.

* A JavaScript object with primitive field values (an account, a transaction, an investor
  profile, a payload) is an `Obj`: an ordered list of fields with pairwise distinct names.
  Reading an absent field gives `none` (JavaScript `undefined`), and `===` on two field
  reads is equality of `Option JVal`.
* `await` is atomic: no other handler runs between the start and the end of a call.
* Everything the code reads from the outside world (the clock, `Math.random`, what arrives
  on a channel before the five second timeout, the HTTP reply) is an explicit input, grouped
  in `SendEnv`, `SyncEnv` and `ConnectEnv`.
* A loop or recursion that the code may run without bound takes a `fuel` argument and reports
  whether it finished.
* The `pilgrim_network_*` keys of `localStorage` are transport; the node state holds the three
  database keys only.
-/

namespace NetworkBridge

/-! ## Values and objects -/

/-- JSON primitive: the value of one field of a stored record or payload. -/
inductive JVal where
  | null
  | bool (b : Bool)
  | num (n : Int)
  | str (s : String)
  deriving DecidableEq, Repr

/-- Field list of an object, in insertion order. -/
abbrev Fields := List (String × JVal)

/-- Field names, in insertion order. -/
def Fields.keys (f : Fields) : List String := f.map Prod.fst

/-- Property read `o[k]`; `none` is `undefined`. -/
def Fields.get : Fields → String → Option JVal
  | [], _ => none
  | (k1, v1) :: t, k => if k1 = k then some v1 else Fields.get t k

/-- Property write `o[k] = v`: overwrites in place, or appends a new field. -/
def Fields.set : Fields → String → JVal → Fields
  | [], k, v => [(k, v)]
  | (k1, v1) :: t, k, v => if k1 = k then (k1, v) :: t else (k1, v1) :: Fields.set t k v

/-- Copy of every field of `b` onto `a`, in order: the second half of `{ ...a, ...b }`. -/
def Fields.spread (a b : Fields) : Fields :=
  b.foldl (fun acc kv => Fields.set acc kv.1 kv.2) a

/-- JavaScript object with primitive field values: field names are pairwise distinct. -/
structure Obj where
  fields : Fields
  nodup : fields.keys.Nodup

instance : DecidableEq Obj := fun a b =>
  decidable_of_iff (a.fields = b.fields)
    ⟨fun h => by cases a; cases b; cases h; rfl, fun h => by rw [h]⟩

instance : Repr Obj := ⟨fun o n => reprPrec o.fields n⟩

/-- Property read `o.k`. -/
def Obj.get (o : Obj) (k : String) : Option JVal := o.fields.get k

/-- Property write `o.k = v`. -/
def Obj.set (o : Obj) (k : String) (v : JVal) : Obj where
  fields := o.fields.set k v
  nodup := by
    have key : ∀ f : Fields, (f.set k v).keys = if k ∈ f.keys then f.keys else f.keys ++ [k] := by
      intro f
      induction f with
      | nil => simp [Fields.set, Fields.keys]
      | cons hd t ih =>
        obtain ⟨k1, v1⟩ := hd
        by_cases h : k1 = k
        · simp [Fields.set, Fields.keys, h]
        · have h2 : ¬ k = k1 := fun e => h e.symm
          simp only [Fields.keys] at ih
          by_cases hm : k ∈ List.map Prod.fst t
          · simp [Fields.set, Fields.keys, h, h2, hm, ih]
          · simp [Fields.set, Fields.keys, h, h2, hm, ih]
    rw [key]
    by_cases hm : k ∈ o.fields.keys
    · simpa [hm] using o.nodup
    · simp only [hm, if_false]
      exact List.Nodup.append o.nodup (List.nodup_singleton k) (by simpa using hm)

/-- Object spread `{ ...a, ...b }`. -/
def Obj.spread (a b : Obj) : Obj :=
  b.fields.foldl (fun acc kv => Obj.set acc kv.1 kv.2) a

/-- Empty object literal. -/
def Obj.empty : Obj := ⟨[], List.nodup_nil⟩

/-! ## Bridge state -/

/-- The three platforms (`'mainBank'`, `'investment'`, `'customer'`). -/
inductive Platform where
  | mainBank
  | investment
  | customer
  deriving DecidableEq, Repr

/-- Platform name as it appears in keys and message ids. -/
def Platform.name : Platform → String
  | .mainBank => "mainBank"
  | .investment => "investment"
  | .customer => "customer"

/-- Record `config` of the bridge. -/
structure Config where
  mainBankPort : Nat := 8081
  investmentPort : Nat := 8082
  customerPort : Nat := 8083
  syncInterval : Nat := 5000
  retryAttempts : Nat := 3
  retryDelay : Nat := 1000
  deriving DecidableEq, Repr

/-- One entry of `connections`. -/
structure Connection where
  connected : Bool := false
  lastSync : Option String := none
  endpoint : Option String := none
  deriving DecidableEq, Repr

/-- Record `connections`: one entry per platform. -/
structure Connections where
  mainBank : Connection := {}
  investment : Connection := {}
  customer : Connection := {}
  deriving DecidableEq, Repr

/-- Lookup `connections[platform]`. -/
def Connections.get (c : Connections) : Platform → Connection
  | .mainBank => c.mainBank
  | .investment => c.investment
  | .customer => c.customer

/-- Replacement of `connections[platform]`. -/
def Connections.set (c : Connections) (p : Platform) (x : Connection) : Connections :=
  match p with
  | .mainBank => { c with mainBank := x }
  | .investment => { c with investment := x }
  | .customer => { c with customer := x }

/-- Object returned by `getLocalData` (its `settings` field is always the empty object). -/
structure Snapshot where
  users : List Obj := []
  transactions : List Obj := []
  investments : List Obj := []
  deriving DecidableEq, Repr

/-- Field `data` of a message. -/
inductive Payload where
  | absent
  | record (o : Obj)
  | snapshot (d : Snapshot)
  deriving DecidableEq, Repr

/-- Message object, as sent or received. The first five fields are the ones the bridge
writes; `users`, `transactions` and `investments` are the top-level properties that
`updateLocalData` reads from the object it is given. A field that is `none` is absent. -/
structure Message where
  type : Option String := none
  platform : Option Platform := none
  messageId : Option String := none
  data : Payload := .absent
  timestamp : Option String := none
  users : Option (List Obj) := none
  transactions : Option (List Obj) := none
  investments : Option (List Obj) := none
  deriving DecidableEq, Repr

/-- Entry of `messageQueue`. -/
structure QueuedMessage where
  platform : Platform
  message : Message
  timestamp : String
  attempts : Nat
  deriving DecidableEq, Repr

/-- Parsed value of the key `pilgrimsBankDB` (fields the bridge never touches are left out). -/
structure BankDB where
  users : List Obj := []
  transactions : List Obj := []
  deriving DecidableEq, Repr

/-- Parsed value of the key `pilgrimCustomerDB`. -/
structure CustomerDB where
  customers : List Obj := []
  transactions : List Obj := []
  deriving DecidableEq, Repr

/-- Parsed value of the key `pilgrimInvestmentDB`. -/
structure InvestmentDB where
  investors : List Obj := []
  deriving DecidableEq, Repr

/-- The three database keys of `localStorage`; `none` is a key that was never written. -/
structure Storage where
  bankDB : Option BankDB := none
  customerDB : Option CustomerDB := none
  investmentDB : Option InvestmentDB := none
  deriving DecidableEq, Repr

/-- State of one node: the `NetworkBridge` object and its `localStorage`. -/
structure Node where
  config : Config := {}
  currentPlatform : Option Platform := none
  connections : Connections := {}
  messageQueue : List QueuedMessage := []
  isOnline : Bool := true
  storage : Storage := {}
  deriving DecidableEq, Repr

/-! ## Environment of one send -/

/-- Settlement of a promise: rejected (error or timeout), or resolved with a value, where
`none` stands for a falsy value (`null`, `0`, `false`, `""`). -/
inductive Outcome where
  | rejected
  | resolved (value : Option Message)
  deriving DecidableEq, Repr

/-- The truthy value an outcome carries, if any. -/
def Outcome.response : Outcome → Option Message
  | .rejected => none
  | .resolved v => v

/-- A `storage` event: `newValue` is `none` for a removal or an empty string, and else the
parsed JSON (`some none` when that JSON is a falsy value). -/
structure StorageEvent where
  key : String
  newValue : Option (Option Message)

/-- Reply of `fetch`: `body` is what `response.json()` settles to. -/
structure HttpResponse where
  ok : Bool
  status : Nat
  body : Outcome

/-- What the outside world supplies to one call of `sendMessage`. -/
structure SendEnv where
  /-- Reading of `Date.now()` in `generateMessageId`. -/
  dateNow : Nat
  /-- Value of `Math.random().toString(36).substr(2, 9)`. -/
  random : String
  /-- Reading of `new Date().toISOString()` in `queueMessage`. -/
  queuedAt : String
  /-- The `message` events on the window before the timeout, after the message was posted. -/
  windowInbox : Platform → Message → List Message
  /-- The `message` events on the broadcast channel before the timeout. -/
  channelInbox : Platform → Message → List Message
  /-- The `storage` events before the timeout, after the message was stored. -/
  storageEvents : Platform → Message → List StorageEvent
  /-- Result of `fetch`; `none` when the request itself fails. -/
  fetch : Platform → Message → Option HttpResponse

/-- The four delivery methods. -/
inductive Adapter where
  | postMessage
  | broadcastChannel
  | localStorage
  | fetch
  deriving DecidableEq, Repr

/-! ## Delivery -/

/-- Text of `currentPlatform` inside a template string. -/
def currentPlatformText (s : Node) : String :=
  match s.currentPlatform with
  | some p => p.name
  | none => "null"

/-- Function `generateMessageId`. -/
def generateMessageId (env : SendEnv) (s : Node) : String :=
  currentPlatformText s ++ "_" ++ toString env.dateNow ++ "_" ++ env.random

/-- Function `queueMessage`. -/
def queueMessage (now : String) (platform : Platform) (message : Message) (s : Node) : Node :=
  let queuedMessage : QueuedMessage :=
    { platform := platform, message := message, timestamp := now, attempts := 0 }
  { s with messageQueue := s.messageQueue ++ [queuedMessage] }

/-- Function `findPlatformWindow`: a placeholder that finds no window. -/
def findPlatformWindow (_platform : Platform) : Option Unit := none

/-- Function `sendViaPostMessage`. -/
def sendViaPostMessage (env : SendEnv) (platform : Platform) (message : Message) : Outcome :=
  match findPlatformWindow platform with
  | some _ =>
    match (env.windowInbox platform message).find? (fun e => e.messageId == message.messageId) with
    | some d => .resolved (some d)
    | none => .rejected
  | none => .rejected

/-- Function `sendViaBroadcastChannel`. -/
def sendViaBroadcastChannel (env : SendEnv) (platform : Platform) (message : Message) : Outcome :=
  match (env.channelInbox platform message).find? (fun e => e.messageId == message.messageId) with
  | some d => .resolved (some d)
  | none => .rejected

/-- Function `sendViaLocalStorage`. -/
def sendViaLocalStorage (env : SendEnv) (s : Node) (platform : Platform) (message : Message) :
    Outcome :=
  let responseKey := "pilgrim_network_" ++ currentPlatformText s ++ "_resp"
  match (env.storageEvents platform message).find?
      (fun e => e.key == responseKey && e.newValue.isSome) with
  | some e => .resolved (e.newValue.getD none)
  | none => .rejected

/-- Function `sendViaFetch`. -/
def sendViaFetch (env : SendEnv) (platform : Platform) (message : Message) : Outcome :=
  match env.fetch platform message with
  | some response => if response.ok then response.body else .rejected
  | none => .rejected

/-- Dispatch to the function that implements an adapter. -/
def runAdapter (env : SendEnv) (s : Node) (platform : Platform) (message : Message) :
    Adapter → Outcome
  | .postMessage => sendViaPostMessage env platform message
  | .broadcastChannel => sendViaBroadcastChannel env platform message
  | .localStorage => sendViaLocalStorage env s platform message
  | .fetch => sendViaFetch env platform message

/-- The statement `try { response = await adapter } catch (e) { }`. -/
def attempt (response : Option Message) (o : Outcome) : Option Message :=
  match o with
  | .resolved v => v
  | .rejected => response

/-- What a call of `sendMessage` did. -/
structure SendResult where
  /-- Settlement of the call: `.error` if it threw, and else the returned value
  (`none` is `null`). -/
  value : Except String (Option Message)
  /-- State after the call. -/
  node : Node
  /-- The platform the call was made for. -/
  platform : Platform
  /-- The message object after the call (it is stamped in place). -/
  message : Message
  /-- The adapters invoked, in order. -/
  tried : List Adapter

/-- Function `sendMessage`. The variable `response` starts as `null`; each adapter is awaited
inside its own `try`, so a failing adapter leaves `response` as it was. Nothing else inside
the outer `try` can throw, so the outer `catch` is never entered. -/
def sendMessage (env : SendEnv) (platform : Platform) (message : Message) (s : Node) :
    SendResult :=
  let connection := s.connections.get platform
  if !connection.connected then
    { value := .ok none, node := queueMessage env.queuedAt platform message s,
      platform := platform, message := message, tried := [] }
  else
    let messageId := generateMessageId env s
    let message := { message with messageId := some messageId }
    let response : Option Message := none
    let tried : List Adapter := []
    let response := attempt response (sendViaPostMessage env platform message)
    let tried := tried ++ [Adapter.postMessage]
    let (response, tried) :=
      if response.isNone then
        (attempt response (sendViaBroadcastChannel env platform message),
          tried ++ [Adapter.broadcastChannel])
      else (response, tried)
    let (response, tried) :=
      if response.isNone then
        (attempt response (sendViaLocalStorage env s platform message),
          tried ++ [Adapter.localStorage])
      else (response, tried)
    let (response, tried) :=
      if response.isNone then
        (attempt response (sendViaFetch env platform message), tried ++ [Adapter.fetch])
      else (response, tried)
    match response with
    | some r =>
      { value := .ok (some r), node := s, platform := platform, message := message,
        tried := tried }
    | none =>
      { value := .ok none, node := queueMessage env.queuedAt platform message s,
        platform := platform, message := message, tried := tried }

/-- Priority order of the adapters. -/
def adapterOrder : List Adapter :=
  [.postMessage, .broadcastChannel, .localStorage, .fetch]

/-- The elements of a list up to and including the first one that satisfies `p`. -/
def upToFirst {α : Type} (p : α → Bool) : List α → List α
  | [] => []
  | a :: t => if p a then [a] else a :: upToFirst p t

/-! ## Sample data -/

/-- An environment in which nothing arrives and every request fails. -/
def silentEnv : SendEnv :=
  { dateNow := 0, random := "r", queuedAt := "t0",
    windowInbox := fun _ _ => [], channelInbox := fun _ _ => [],
    storageEvents := fun _ _ => [], fetch := fun _ _ => none }

/-- An environment in which the broadcast channel echoes the posted message. -/
def echoEnv : SendEnv :=
  { silentEnv with channelInbox := fun _ m => [m] }

/-- A freshly initialised main-bank node: nothing connected, nothing queued, nothing stored. -/
def freshNode : Node := { currentPlatform := some .mainBank }

/-- The fresh node with the customer platform marked connected. -/
def linkedNode : Node :=
  { freshNode with connections := { customer := { connected := true } } }

/-- A `TRANSACTION` message without payload. -/
def sampleMessage : Message := { type := some "TRANSACTION" }

/-- The message `sendMessage` hands to the adapters: the argument with a new `messageId`. -/
def stamp (env : SendEnv) (s : Node) (message : Message) : Message :=
  { message with messageId := some (generateMessageId env s) }

/-- Response of the first adapter, in priority order, that produces one for the stamped
message. -/
def firstResponse (env : SendEnv) (s : Node) (platform : Platform) (message : Message) :
    Option Message :=
  adapterOrder.findSome? (fun a => (runAdapter env s platform (stamp env s message) a).response)

/-! ## Local stores -/

/-- Method `findIndex` of arrays; `none` is the result `-1`. -/
def findIndex {α : Type} (p : α → Bool) : List α → Option Nat
  | [] => none
  | a :: t => if p a then some 0 else (findIndex p t).map (· + 1)

/-- Body of the `forEach` loops of `updateLocalUsers` and `updateLocalInvestments`: the record
with the same `username` is replaced by `{ ...existing, ...user }`, or `user` is pushed. -/
def upsertByUsername (list : List Obj) (user : Obj) : List Obj :=
  match findIndex (fun u => u.get "username" == user.get "username") list with
  | some existingIndex =>
    match list[existingIndex]? with
    | some existing => list.set existingIndex (Obj.spread existing user)
    | none => list
  | none => list ++ [user]

/-- Function `updateLocalUsers`. -/
def updateLocalUsers (users : List Obj) (st : Storage) : Storage :=
  let bankDB := st.bankDB.getD {}
  let bankDB := { bankDB with users := users.foldl upsertByUsername bankDB.users }
  let st := { st with bankDB := some bankDB }
  let customerDB := st.customerDB.getD {}
  let customerDB :=
    { customerDB with customers := users.foldl upsertByUsername customerDB.customers }
  { st with customerDB := some customerDB }

/-- One list of the `forEach` body of `updateLocalTransactions`: `tx` is pushed unless `find`
returns an entry with the same `id`. -/
def pushIfAbsent (list : List Obj) (tx : Obj) : List Obj :=
  if (list.find? (fun t => t.get "id" == tx.get "id")).isNone then list ++ [tx] else list

/-- Function `updateLocalTransactions`. -/
def updateLocalTransactions (transactions : List Obj) (st : Storage) : Storage :=
  let bankDB := st.bankDB.getD {}
  let customerDB := st.customerDB.getD {}
  let lists := transactions.foldl
    (fun (lists : List Obj × List Obj) tx => (pushIfAbsent lists.1 tx, pushIfAbsent lists.2 tx))
    (bankDB.transactions, customerDB.transactions)
  let bankDB := { bankDB with transactions := lists.1 }
  let customerDB := { customerDB with transactions := lists.2 }
  { st with bankDB := some bankDB, customerDB := some customerDB }

/-- Function `updateLocalInvestments`. -/
def updateLocalInvestments (investments : List Obj) (st : Storage) : Storage :=
  let investmentDB := st.investmentDB.getD {}
  let investmentDB :=
    { investmentDB with investors := investments.foldl upsertByUsername investmentDB.investors }
  { st with investmentDB := some investmentDB }

/-- Function `updateLocalData`: each of the three top-level lists of `remoteData` is merged when
it is present and not empty. -/
def updateLocalData (remoteData : Message) (st : Storage) : Storage :=
  let st :=
    match remoteData.users with
    | some users => if users.length > 0 then updateLocalUsers users st else st
    | none => st
  let st :=
    match remoteData.transactions with
    | some transactions =>
      if transactions.length > 0 then updateLocalTransactions transactions st else st
    | none => st
  match remoteData.investments with
  | some investments =>
    if investments.length > 0 then updateLocalInvestments investments st else st
  | none => st

/-- Function `getLocalData`. -/
def getLocalData (st : Storage) : Snapshot :=
  let data : Snapshot := {}
  let data :=
    match st.bankDB with
    | some parsed =>
      { data with users := data.users ++ parsed.users,
                  transactions := data.transactions ++ parsed.transactions }
    | none => data
  let data :=
    match st.investmentDB with
    | some parsed => { data with investments := data.investments ++ parsed.investors }
    | none => data
  match st.customerDB with
  | some parsed => { data with users := data.users ++ parsed.customers }
  | none => data

/-- One list of `updateLocalTransaction`: the entry with the same `id` is replaced, or the
transaction is pushed. -/
def replaceOrPush (list : List Obj) (transaction : Obj) : List Obj :=
  match findIndex (fun t => t.get "id" == transaction.get "id") list with
  | some index => list.set index transaction
  | none => list ++ [transaction]

/-- Function `updateLocalTransaction`. -/
def updateLocalTransaction (transaction : Obj) (st : Storage) : Storage :=
  let bankDB := st.bankDB.getD {}
  let customerDB := st.customerDB.getD {}
  let bankDB := { bankDB with transactions := replaceOrPush bankDB.transactions transaction }
  let customerDB :=
    { customerDB with transactions := replaceOrPush customerDB.transactions transaction }
  { st with bankDB := some bankDB, customerDB := some customerDB }

/-- The two conditional assignments of `updateLocalBalance` on the account found. -/
def assignBalances (user balanceData : Obj) : Obj :=
  let user :=
    match balanceData.get "coinBalance" with
    | some coinBalance => user.set "coinBalance" coinBalance
    | none => user
  match balanceData.get "cashBalance" with
  | some cashBalance => user.set "cashBalance" cashBalance
  | none => user

/-- Function `updateLocalBalance`: the bank database is written only when the account exists. -/
def updateLocalBalance (balanceData : Obj) (st : Storage) : Storage :=
  let bankDB := st.bankDB.getD {}
  match findIndex (fun u => u.get "username" == balanceData.get "username") bankDB.users with
  | some userIndex =>
    match bankDB.users[userIndex]? with
    | some user =>
      let bankDB :=
        { bankDB with users := bankDB.users.set userIndex (assignBalances user balanceData) }
      { st with bankDB := some bankDB }
    | none => st
  | none => st

/-- Function `updateLocalUser`. -/
def updateLocalUser (userData : Obj) (st : Storage) : Storage :=
  updateLocalUsers [userData] st

/-- An account record. -/
def account (username : String) (coinBalance : Int) : Obj :=
  ⟨[("username", .str username), ("coinBalance", .num coinBalance)], by simp [Fields.keys]⟩

/-- An account record that also carries an e-mail address. -/
def accountWithEmail (username : String) (coinBalance : Int) (email : String) : Obj :=
  ⟨[("username", .str username), ("coinBalance", .num coinBalance), ("email", .str email)],
    by simp [Fields.keys]⟩

/-- A transaction record. -/
def transaction (id : Int) (amount : Int) : Obj :=
  ⟨[("id", .num id), ("amount", .num amount)], by simp [Fields.keys]⟩

/-! ## Reconciliation -/

/-- What `sendResponse` stores in `localStorage`: the response key and the response. -/
structure StoredResponse where
  key : String
  value : Message
  deriving DecidableEq, Repr

/-- Function `sendResponse`: the response is stored under the response key of `platform`
(the trigger key is set and removed at once). -/
def sendResponse (platform : Option Platform) (response : Message) : StoredResponse :=
  let name := match platform with
    | some p => p.name
    | none => "undefined"
  { key := "pilgrim_network_" ++ name ++ "_resp", value := response }

/-- Function `handleSyncRequest`: returns the node afterwards and what was stored for the
requester. -/
def handleSyncRequest (now : String) (message : Message) (s : Node) : Node × StoredResponse :=
  let responseData : Message :=
    { type := some "SYNC_RESPONSE", platform := s.currentPlatform,
      messageId := message.messageId, data := .snapshot (getLocalData s.storage),
      timestamp := some now }
  (s, sendResponse message.platform responseData)

/-- What the outside world supplies to one call of `syncWithPlatform`. -/
structure SyncEnv where
  /-- Clock reading for the `timestamp` of the `SYNC` message. -/
  stampedAt : String
  /-- Environment of the send. -/
  send : SendEnv
  /-- Clock reading for `lastSync`. -/
  syncedAt : String

/-- What a call of `syncWithPlatform` did. -/
structure SyncResult where
  node : Node
  send : SendResult

/-- Function `syncWithPlatform`. -/
def syncWithPlatform (env : SyncEnv) (platform : Platform) (s : Node) : SyncResult :=
  let localData := getLocalData s.storage
  let r := sendMessage env.send platform
    { type := some "SYNC", platform := s.currentPlatform, data := .snapshot localData,
      timestamp := some env.stampedAt } s
  match r.value with
  | .ok (some syncData) =>
    let s := r.node
    let s := { s with storage := updateLocalData syncData s.storage }
    let connection := s.connections.get platform
    let connection := { connection with lastSync := some env.syncedAt }
    { node := { s with connections := s.connections.set platform connection }, send := r }
  | .ok none => { node := r.node, send := r }
  | .error _ => { node := r.node, send := r }

/-- Merge of a snapshot: `updateLocalData` applied to an object whose top-level lists are
those of the snapshot. -/
def mergeSnapshot (snapshot : Snapshot) (st : Storage) : Storage :=
  updateLocalData
    { users := some snapshot.users, transactions := some snapshot.transactions,
      investments := some snapshot.investments } st

/-- A send environment in which `peer` answers through `localStorage`: the only storage event
is the response that `handleSyncRequest` of `peer` stores for the message. -/
def answeredBy (peer : Node) (now : String) : SendEnv :=
  { silentEnv with
    storageEvents := fun _ m =>
      [{ key := (handleSyncRequest now m peer).2.key,
         newValue := some (some (handleSyncRequest now m peer).2.value) }] }

/-! ## Message queue -/

/-- What a run of `processMessageQueue` did. -/
structure DrainResult where
  /-- State reached. -/
  node : Node
  /-- The calls of `sendMessage`, in order. -/
  sends : List SendResult
  /-- Whether the loop was left; `false` when the fuel ran out first. -/
  finished : Bool

/-- Function `processMessageQueue`. The `fuel` bounds the number of evaluations of the loop
condition; `env i` is the environment of the send of the `i`-th iteration. The `catch` block
of the loop body is the `.error` case of the value of `sendMessage`. -/
def processMessageQueue : Nat → (Nat → SendEnv) → Node → DrainResult
  | 0, _, s => { node := s, sends := [], finished := false }
  | fuel + 1, env, s =>
    match s.messageQueue with
    | [] => { node := s, sends := [], finished := true }
    | queuedMessage :: rest =>
      let s := { s with messageQueue := rest }
      if (s.connections.get queuedMessage.platform).connected then
        let r := sendMessage (env 0) queuedMessage.platform queuedMessage.message s
        let s :=
          match r.value with
          | .ok _ => r.node
          | .error _ =>
            let queuedMessage := { queuedMessage with attempts := queuedMessage.attempts + 1 }
            if queuedMessage.attempts < r.node.config.retryAttempts then
              { r.node with messageQueue := r.node.messageQueue ++ [queuedMessage] }
            else r.node
        let out := processMessageQueue fuel (fun i => env (i + 1)) s
        { out with sends := r :: out.sends }
      else
        { node := { s with messageQueue := s.messageQueue ++ [queuedMessage] }, sends := [],
          finished := true }

/-- A main-bank node that stores alice with balance 1 and sees the customer node connected. -/
def bankNode : Node :=
  { currentPlatform := some .mainBank,
    connections := { customer := { connected := true } },
    storage := { bankDB := some { users := [account "alice" 1] } } }

/-- A customer node that stores alice with balance 2 and sees the main bank connected. -/
def customerNode : Node :=
  { currentPlatform := some .customer,
    connections := { mainBank := { connected := true } },
    storage := { customerDB := some { customers := [account "alice" 2] } } }

/-- Environment of a sync that `peer` answers through `localStorage`. -/
def syncAnsweredBy (peer : Node) : SyncEnv :=
  { stampedAt := "t0", send := answeredBy peer "t1", syncedAt := "t2" }

/-- Successive calls `sendMessage(platform, m)` for the messages of a list, in order; `env i`
is the environment of the `i`-th call. -/
def sendAll : (Nat → SendEnv) → Platform → List Message → Node → Node
  | _, _, [], s => s
  | env, platform, m :: ms, s =>
    sendAll (fun i => env (i + 1)) platform ms (sendMessage (env 0) platform m s).node

/-- A message without its `messageId`. -/
def unstamped (m : Message) : Message := { m with messageId := none }

/-- A node whose queue holds one `TRANSACTION` message for the connected customer platform. -/
def stuckNode : Node :=
  { linkedNode with
    messageQueue := [{ platform := .customer, message := sampleMessage, timestamp := "t",
                       attempts := 0 }] }

/-- A second sample message. -/
def otherMessage : Message := { type := some "USER_UPDATE" }

/-- The fresh node after two sends to the disconnected customer platform, with that platform
then marked connected. -/
def reconnectedNode : Node :=
  { sendAll (fun _ => silentEnv) .customer [sampleMessage, otherMessage] freshNode with
    connections := { customer := { connected := true } } }

/-! ## Connection health -/

/-- What the outside world supplies to one call of `connectToPlatform`. -/
structure ConnectEnv where
  /-- Result of `fetch(endpoint + '/api/ping')`: `none` when the request is rejected, and
  else the flag `response.ok`. -/
  apiPing : Option String → Option Bool
  /-- Whether the fallback `fetch(endpoint)` in `no-cors` mode resolves. -/
  direct : Option String → Bool
  /-- Clock reading for `lastSync` after a successful probe. -/
  connectedAt : String
  /-- Environment of the initial sync. -/
  sync : SyncEnv

/-- Function `sendPing`: both requests are made inside `try` blocks, so the call settles with
a boolean and never throws. -/
def sendPing (env : ConnectEnv) (endpoint : Option String) : Except String Bool :=
  match env.apiPing endpoint with
  | some ok => .ok ok
  | none => if env.direct endpoint then .ok true else .ok false

/-- Observable steps of `connectToPlatform` and `retryConnection`. -/
inductive ConnEvent where
  /-- A call of `sendPing` for the platform. -/
  | probe (platform : Platform)
  /-- The event `network-connection` for the platform. -/
  | notifyConnection (platform : Platform)
  /-- A call of `syncWithPlatform`. -/
  | sync (platform : Platform)
  /-- A call `retryConnection(platform, attempt)`. -/
  | retry (platform : Platform) (attempt : Nat)
  /-- An awaited `setTimeout` of the given number of milliseconds. -/
  | wait (ms : Nat)
  deriving DecidableEq, Repr

/-- What a call of `connectToPlatform` or `retryConnection` did. -/
structure ConnectResult where
  /-- State reached. -/
  node : Node
  /-- The steps taken, in order. -/
  events : List ConnEvent
  /-- The calls of `syncWithPlatform`, in order. -/
  syncs : List SyncResult
  /-- Whether the call returned; `false` when the fuel ran out first. -/
  finished : Bool

mutual

/-- Function `connectToPlatform`. The `fuel` bounds the depth of the mutual recursion with
`retryConnection`; `env i` is the environment of the `i`-th probe. The `catch` block is the
`.error` case of the value of `sendPing`; it calls `retryConnection(platform)`, whose
`attempt` defaults to 1. -/
def connectToPlatform : Nat → (Nat → ConnectEnv) → Platform → Node → ConnectResult
  | 0, _, _, s => { node := s, events := [], syncs := [], finished := false }
  | fuel + 1, env, platform, s =>
    let connection := s.connections.get platform
    match sendPing (env 0) connection.endpoint with
    | .ok response =>
      if response then
        let connection :=
          { connection with connected := true, lastSync := some (env 0).connectedAt }
        let s := { s with connections := s.connections.set platform connection }
        let r := syncWithPlatform (env 0).sync platform s
        { node := r.node,
          events := [.probe platform, .notifyConnection platform, .sync platform],
          syncs := [r], finished := true }
      else
        { node := s, events := [.probe platform], syncs := [], finished := true }
    | .error _ =>
      let connection := { connection with connected := false }
      let s := { s with connections := s.connections.set platform connection }
      let out := retryConnection fuel (fun i => env (i + 1)) platform 1 s
      { out with events := .probe platform :: out.events }

/-- Function `retryConnection`. -/
def retryConnection : Nat → (Nat → ConnectEnv) → Platform → Nat → Node → ConnectResult
  | 0, _, _, _, s => { node := s, events := [], syncs := [], finished := false }
  | fuel + 1, env, platform, attempt, s =>
    if attempt > s.config.retryAttempts then
      { node := s, events := [.retry platform attempt], syncs := [], finished := true }
    else
      let delay := s.config.retryDelay * 2 ^ (attempt - 1)
      let out := connectToPlatform fuel env platform s
      { out with events := .retry platform attempt :: .wait delay :: out.events }

end

/-- A connect environment in which both probe requests fail and nothing answers the sync. -/
def deadConnectEnv : ConnectEnv :=
  { apiPing := fun _ => none, direct := fun _ => false, connectedAt := "c0",
    sync := { stampedAt := "t0", send := silentEnv, syncedAt := "t2" } }

/-- A connect environment in which the probe succeeds and the broadcast channel echoes. -/
def liveConnectEnv : ConnectEnv :=
  { apiPing := fun _ => some true, direct := fun _ => true, connectedAt := "c0",
    sync := { stampedAt := "t0", send := echoEnv, syncedAt := "t2" } }

/-- A queue entry for the customer platform. -/
def customerEntry (message : Message) : QueuedMessage :=
  { platform := .customer, message := message, timestamp := "t", attempts := 0 }

/-- A queue entry for the investment platform. -/
def investmentEntry (message : Message) : QueuedMessage :=
  { platform := .investment, message := message, timestamp := "t", attempts := 0 }

/-- A main-bank node with two messages queued for the customer platform, which is not
connected. -/
def blockedNode : Node :=
  { freshNode with messageQueue := [customerEntry sampleMessage, customerEntry otherMessage] }

/-- A main-bank node that sees the investment platform connected and the customer platform
not, with a message for the customer platform queued ahead of one for the investment
platform. -/
def mixedNode : Node :=
  { freshNode with
    connections := { investment := { connected := true } },
    messageQueue := [customerEntry sampleMessage, investmentEntry otherMessage] }

/-- The `SYNC` message that `syncWithPlatform` builds. -/
def syncRequest (env : SyncEnv) (s : Node) : Message :=
  { type := some "SYNC", platform := s.currentPlatform,
    data := .snapshot (getLocalData s.storage), timestamp := some env.stampedAt }

/-- The node after a successful probe of `platform`, before the initial sync. -/
def markConnected (now : String) (platform : Platform) (s : Node) : Node :=
  let connection := s.connections.get platform
  let connection := { connection with connected := true, lastSync := some now }
  { s with connections := s.connections.set platform connection }

/-- A `TRANSACTION` message that carries the transaction with id 42. -/
def transaction42 : Message :=
  { type := some "TRANSACTION", data := .record (transaction 42 10) }

/-- A response that carries the message id of some other request. -/
def staleResponse : Message := { type := some "PONG", messageId := some "stale" }

/-- An environment in which the only thing that arrives is a storage event under the
response key of the main bank, holding the stale response. -/
def staleStorageEnv : SendEnv :=
  { silentEnv with
    storageEvents := fun _ _ =>
      [{ key := "pilgrim_network_mainBank_resp", newValue := some (some staleResponse) }] }

/-- An environment in which the only thing that arrives is the stale response, on the
broadcast channel. -/
def staleChannelEnv : SendEnv :=
  { silentEnv with channelInbox := fun _ _ => [staleResponse] }

/-- The echoing environment one millisecond later. -/
def laterEchoEnv : SendEnv := { echoEnv with dateNow := 1 }

/-! ## Inbound messages -/

/-- Function `handlePingRequest`: returns the node afterwards and what was stored for the
requester. -/
def handlePingRequest (now : String) (message : Message) (s : Node) : Node × StoredResponse :=
  let responseData : Message :=
    { type := some "PONG", platform := s.currentPlatform,
      messageId := message.messageId, timestamp := some now }
  (s, sendResponse message.platform responseData)

/-- A custom event dispatched on the window by `dispatchCustomEvent`. -/
structure LocalEvent where
  name : String
  detail : Payload
  deriving DecidableEq, Repr

/-- What the handling of one inbound message did. -/
structure HandlerResult where
  /-- Settlement of the handler: `.error` if it threw. -/
  value : Except String Unit
  /-- State after the handler. -/
  node : Node
  /-- The responses stored for a requester, in order. -/
  written : List StoredResponse
  /-- The local events dispatched, in order. -/
  events : List LocalEvent

/-- A handler that did nothing. -/
def HandlerResult.unchanged (s : Node) : HandlerResult :=
  { value := .ok (), node := s, written := [], events := [] }

/-- Result of an update handler whose `message.data` is not a record of primitive fields: such
payloads are outside this embedding, and the model reports them as an error with the node
unchanged. -/
def HandlerResult.notRecord (s : Node) : HandlerResult :=
  { value := .error "message.data is not a record", node := s, written := [], events := [] }

/-- Function `handleTransactionMessage`. -/
def handleTransactionMessage (message : Message) (s : Node) : HandlerResult :=
  match message.data with
  | .record transaction =>
    { value := .ok (),
      node := { s with storage := updateLocalTransaction transaction s.storage },
      written := [], events := [{ name := "transaction-update", detail := message.data }] }
  | _ => HandlerResult.notRecord s

/-- Function `handleBalanceUpdate`. -/
def handleBalanceUpdate (message : Message) (s : Node) : HandlerResult :=
  match message.data with
  | .record balanceData =>
    { value := .ok (),
      node := { s with storage := updateLocalBalance balanceData s.storage },
      written := [], events := [{ name := "balance-update", detail := message.data }] }
  | _ => HandlerResult.notRecord s

/-- Function `handleUserUpdate`. -/
def handleUserUpdate (message : Message) (s : Node) : HandlerResult :=
  match message.data with
  | .record userData =>
    { value := .ok (),
      node := { s with storage := updateLocalUser userData s.storage },
      written := [], events := [{ name := "user-update", detail := message.data }] }
  | _ => HandlerResult.notRecord s

/-- Function `handleIncomingMessage`; `event` is `event.data`, with `none` for a falsy value.
A missing or empty `type` returns at once; the `switch` compares the type with the five
request kinds and its `default` branch only logs. -/
def handleIncomingMessage (now : String) (event : Option Message) (s : Node) : HandlerResult :=
  match event with
  | none => HandlerResult.unchanged s
  | some message =>
    match message.type with
    | none => HandlerResult.unchanged s
    | some type =>
      if type = "" then HandlerResult.unchanged s
      else if type = "SYNC" then
        let r := handleSyncRequest now message s
        { value := .ok (), node := r.1, written := [r.2], events := [] }
      else if type = "PING" then
        let r := handlePingRequest now message s
        { value := .ok (), node := r.1, written := [r.2], events := [] }
      else if type = "TRANSACTION" then handleTransactionMessage message s
      else if type = "BALANCE_UPDATE" then handleBalanceUpdate message s
      else if type = "USER_UPDATE" then handleUserUpdate message s
      else HandlerResult.unchanged s

/-- The response key of a platform, as `sendViaLocalStorage` of that platform computes it. -/
def responseKeyOf (platform : Platform) : String :=
  "pilgrim_network_" ++ platform.name ++ "_resp"

/-- The five message kinds that `handleIncomingMessage` dispatches. -/
def requestKinds : List String :=
  ["SYNC", "PING", "TRANSACTION", "BALANCE_UPDATE", "USER_UPDATE"]

/-- A `SYNC` request from the customer platform that carries a snapshot with one account. -/
def sampleSyncRequest : Message :=
  { type := some "SYNC", platform := some .customer, messageId := some "customer_7_x",
    data := .snapshot { users := [account "carol" 3] }, timestamp := some "t0" }

/-- A `PING` request from the customer platform. -/
def samplePingRequest : Message :=
  { type := some "PING", platform := some .customer, messageId := some "customer_8_y" }

/-- A `SYNC_RESPONSE` message, as it may arrive on the window. -/
def sampleSyncResponse : Message :=
  { type := some "SYNC_RESPONSE", platform := some .customer, messageId := some "mainBank_0_r",
    data := .snapshot { users := [account "carol" 3] } }

/-- A `BALANCE_UPDATE` payload that carries a coin balance only. -/
def coinUpdate (username : String) (coinBalance : Int) : Obj :=
  ⟨[("username", .str username), ("coinBalance", .num coinBalance)], by simp [Fields.keys]⟩

/-- A storage whose bank database holds bob and alice (with her e-mail address) and one
transaction. -/
def sampleStorage : Storage :=
  { bankDB := some { users := [account "bob" 5, accountWithEmail "alice" 1 "a@x"],
                     transactions := [transaction 1 10] } }

/-! ## One record per key -/

/-- The usernames of a list of records, in order (`none` for a record without username). -/
def usernames (list : List Obj) : List (Option JVal) := list.map (fun u => u.get "username")

/-- The ids of a list of transactions, in order. -/
def ids (list : List Obj) : List (Option JVal) := list.map (fun t => t.get "id")

/-- One record per key: the bank users, the customers and the investors each hold pairwise
distinct usernames, and the two transaction lists each hold pairwise distinct ids. -/
def OneRecordPerKey (st : Storage) : Prop :=
  (usernames (st.bankDB.getD {}).users).Nodup ∧
  (usernames (st.customerDB.getD {}).customers).Nodup ∧
  (usernames (st.investmentDB.getD {}).investors).Nodup ∧
  (ids (st.bankDB.getD {}).transactions).Nodup ∧
  (ids (st.customerDB.getD {}).transactions).Nodup

instance (st : Storage) : Decidable (OneRecordPerKey st) := by
  unfold OneRecordPerKey
  infer_instance

/-- A snapshot that repeats the username alice and the transaction id 1. -/
def repeatingSnapshot : Snapshot :=
  { users := [account "alice" 7, account "alice" 8],
    transactions := [transaction 1 11, transaction 1 12],
    investments := [account "alice" 7, account "alice" 8] }

/-- A storage whose customer database holds one account and one transaction, with no bank
database. -/
def customerOnlyStorage : Storage :=
  { customerDB := some { customers := [account "alice" 2],
                         transactions := [transaction 7 70] } }

/-- A main-bank node that sees `platform` connected and has `message` queued for it. -/
def stuckOn (platform : Platform) (message : Message) : Node :=
  { freshNode with
    connections := ({} : Connections).set platform { connected := true },
    messageQueue := [{ platform := platform, message := message, timestamp := "t",
                       attempts := 0 }] }

/-- Successive calls `syncWithPlatform(platform)`, `k` of them; `env i` is the environment of
the `i`-th call. -/
def syncTimes : Nat → (Nat → SyncEnv) → Platform → Node → Node
  | 0, _, _, s => s
  | k + 1, env, platform, s =>
    syncTimes k (fun i => env (i + 1)) platform (syncWithPlatform (env 0) platform s).node

/-- A sync environment in which nothing answers. -/
def silentSyncEnv : SyncEnv := { stampedAt := "t0", send := silentEnv, syncedAt := "t2" }

/-- The entries that `sendMessage` puts back in the queue while `processMessageQueue` sends
the messages of `ahead` (all for connected peers): one entry, with the stamped message and
`attempts = 0`, for each message for which no adapter produces a response, in order. The
`i`-th send uses `env i`. -/
def requeuedEntries : (Nat → SendEnv) → Node → List QueuedMessage → List QueuedMessage
  | _, _, [] => []
  | env, s, e :: rest =>
    (match firstResponse (env 0) s e.platform e.message with
     | some _ => []
     | none =>
       [{ platform := e.platform, message := stamp (env 0) s e.message,
          timestamp := (env 0).queuedAt, attempts := 0 }])
      ++ requeuedEntries (fun i => env (i + 1)) s rest

/-- A main-bank node that sees the investment platform connected and the customer platform
not, with a message for the investment platform queued ahead of two for the customer
platform. -/
def relayNode : Node :=
  { freshNode with
    connections := { investment := { connected := true } },
    messageQueue := [investmentEntry transaction42, customerEntry sampleMessage,
                     customerEntry otherMessage] }

/-! # Properties -/

/-! ## Objects -/

theorem Fields.get_set_self (f : Fields) (k : String) (v : JVal) :
    (f.set k v).get k = some v := by
  induction f with
  | nil => simp [Fields.set, Fields.get]
  | cons hd t ih =>
    obtain ⟨k1, v1⟩ := hd
    by_cases h : k1 = k <;> simp [Fields.set, Fields.get, h, ih]

theorem Fields.get_set_of_ne (f : Fields) (k j : String) (v : JVal) (hne : j ≠ k) :
    (f.set k v).get j = f.get j := by
  induction f with
  | nil =>
    have h2 : ¬ k = j := fun e => hne e.symm
    simp [Fields.set, Fields.get, h2]
  | cons hd t ih =>
    obtain ⟨k1, v1⟩ := hd
    by_cases h : k1 = k
    · subst h
      have h2 : ¬ k1 = j := fun e => hne e.symm
      simp [Fields.set, Fields.get, h2]
    · by_cases h3 : k1 = j
      · subst h3
        simp [Fields.set, Fields.get, h]
      · simp [Fields.set, Fields.get, h, h3, ih]

theorem Fields.set_eq_self (f : Fields) (k : String) (v : JVal) (h : f.get k = some v) :
    f.set k v = f := by
  induction f with
  | nil => simp [Fields.get] at h
  | cons hd t ih =>
    obtain ⟨k1, v1⟩ := hd
    by_cases h1 : k1 = k
    · simp only [Fields.get, h1, if_true, Option.some.injEq] at h
      simp [Fields.set, h1, h]
    · simp only [Fields.get, h1, if_false] at h
      simp [Fields.set, h1, ih h]

theorem Fields.get_eq_none (f : Fields) (k : String) (h : k ∉ f.keys) : f.get k = none := by
  induction f with
  | nil => rfl
  | cons hd t ih =>
    obtain ⟨k1, v1⟩ := hd
    simp only [Fields.keys, List.map_cons, List.mem_cons, not_or] at h
    have h1 : ¬ k1 = k := fun e => h.1 e.symm
    simp only [Fields.get, h1, if_false]
    exact ih h.2

theorem Fields.get_of_mem (f : Fields) (hf : f.keys.Nodup) (k : String) (v : JVal)
    (h : (k, v) ∈ f) : f.get k = some v := by
  induction f with
  | nil => simp at h
  | cons hd t ih =>
    obtain ⟨k1, v1⟩ := hd
    simp only [Fields.keys, List.map_cons, List.nodup_cons] at hf
    rcases List.mem_cons.1 h with h1 | h1
    · cases h1
      simp [Fields.get]
    · have hk : k ∈ List.map Prod.fst t := List.mem_map.2 ⟨(k, v), h1, rfl⟩
      have h2 : ¬ k1 = k := fun e => hf.1 (e ▸ hk)
      simp only [Fields.get, h2, if_false]
      exact ih hf.2 h1

theorem Fields.spread_eq_self (a b : Fields) (h : ∀ kv ∈ b, a.get kv.1 = some kv.2) :
    Fields.spread a b = a := by
  induction b with
  | nil => rfl
  | cons hd t ih =>
    have h1 : a.set hd.1 hd.2 = a := Fields.set_eq_self a hd.1 hd.2 (h hd (List.mem_cons_self _ _))
    simp only [Fields.spread, List.foldl_cons, h1]
    exact ih (fun kv hkv => h kv (List.mem_cons_of_mem _ hkv))

theorem Fields.get_spread (a b : Fields) (hb : b.keys.Nodup) (k : String) :
    (Fields.spread a b).get k = (match b.get k with | some v => some v | none => a.get k) := by
  induction b generalizing a with
  | nil => rfl
  | cons hd t ih =>
    obtain ⟨k1, v1⟩ := hd
    simp only [Fields.keys, List.map_cons, List.nodup_cons] at hb
    have ih2 := ih (a.set k1 v1) hb.2
    simp only [Fields.spread, List.foldl_cons] at ih2 ⊢
    rw [ih2]
    by_cases h : k1 = k
    · subst h
      rw [Fields.get_eq_none t k1 hb.1]
      simp [Fields.get, Fields.get_set_self]
    · have h2 : k ≠ k1 := fun e => h e.symm
      simp only [Fields.get, h, if_false]
      rw [Fields.get_set_of_ne a k1 k v1 h2]

theorem Fields.spread_spread (a b : Fields) (hb : b.keys.Nodup) :
    Fields.spread (Fields.spread a b) b = Fields.spread a b := by
  apply Fields.spread_eq_self
  intro kv hkv
  rw [Fields.get_spread a b hb, Fields.get_of_mem b hb kv.1 kv.2 hkv]

theorem Fields.spread_self (a : Fields) (ha : a.keys.Nodup) : Fields.spread a a = a :=
  Fields.spread_eq_self a a (fun kv hkv => Fields.get_of_mem a ha kv.1 kv.2 hkv)

theorem Obj.ext_fields (a b : Obj) (h : a.fields = b.fields) : a = b := by
  cases a; cases b; cases h; rfl

theorem Obj.spread_fields (a b : Obj) :
    (Obj.spread a b).fields = Fields.spread a.fields b.fields := by
  have key : ∀ (l : Fields) (a : Obj),
      (l.foldl (fun acc kv => Obj.set acc kv.1 kv.2) a).fields
        = l.foldl (fun acc kv => Fields.set acc kv.1 kv.2) a.fields := by
    intro l
    induction l with
    | nil => intro a; rfl
    | cons hd t ih => intro a; simp only [List.foldl_cons]; rw [ih]; rfl
  exact key b.fields a

/-- Reading a field of `{ ...a, ...b }`: the value of `b` when `b` carries the field, and
else the value of `a`. -/
theorem Obj.get_spread_eq (a b : Obj) (k : String) :
    (Obj.spread a b).get k = (match b.get k with | some v => some v | none => a.get k) := by
  simp only [Obj.get, Obj.spread_fields]
  exact Fields.get_spread a.fields b.fields b.nodup k

theorem Obj.spread_twice (a b : Obj) : Obj.spread (Obj.spread a b) b = Obj.spread a b := by
  apply Obj.ext_fields
  rw [Obj.spread_fields, Obj.spread_fields]
  exact Fields.spread_spread a.fields b.fields b.nodup

theorem Obj.spread_same (a : Obj) : Obj.spread a a = a := by
  apply Obj.ext_fields
  rw [Obj.spread_fields]
  exact Fields.spread_self a.fields a.nodup

theorem Obj.get_set_same (o : Obj) (k : String) (v : JVal) : (o.set k v).get k = some v :=
  Fields.get_set_self o.fields k v

theorem Obj.get_set_other (o : Obj) (k j : String) (v : JVal) (hne : j ≠ k) :
    (o.set k v).get j = o.get j :=
  Fields.get_set_of_ne o.fields k j v hne

theorem Obj.set_of_get (o : Obj) (k : String) (v : JVal) (h : o.get k = some v) :
    o.set k v = o :=
  Obj.ext_fields _ _ (Fields.set_eq_self o.fields k v h)

/-! ## Delivery -/

/-- The message a connected send hands to the adapters: the argument, stamped with a new id. -/
theorem sendMessage_message (env : SendEnv) (platform : Platform) (message : Message) (s : Node)
    (h : (s.connections.get platform).connected = true) :
    (sendMessage env platform message s).message
      = { message with messageId := some (generateMessageId env s) } := by
  simp only [sendMessage, h]
  simp only [Bool.not_true, Bool.false_eq_true, if_false]
  split <;> rfl

/-- C1: for each of the three platforms, when its connection is marked not connected,
`sendMessage` invokes no adapter, does not throw, returns `null`, and the queue afterwards is
the previous queue followed by the single entry `{platform, message, attempts = 0}`; nothing
else of the node changes. -/
theorem sendMessage_disconnected (env : SendEnv) (platform : Platform) (message : Message)
    (s : Node) (h : (s.connections.get platform).connected = false) :
    (sendMessage env platform message s).tried = [] ∧
    (sendMessage env platform message s).value = .ok none ∧
    (sendMessage env platform message s).node.messageQueue
      = s.messageQueue ++ [{ platform := platform, message := message,
                             timestamp := env.queuedAt, attempts := 0 }] ∧
    (sendMessage env platform message s).node
      = { s with messageQueue := (sendMessage env platform message s).node.messageQueue } := by
  simp [sendMessage, h, queueMessage]

/-- Witness of C1 on the fresh node. -/
theorem sendMessage_disconnected_witness :
    (freshNode.connections.get .customer).connected = false ∧
    (sendMessage silentEnv .customer sampleMessage freshNode).node.messageQueue
      = freshNode.messageQueue ++ [{ platform := .customer, message := sampleMessage,
                                     timestamp := silentEnv.queuedAt, attempts := 0 }] :=
  ⟨by decide, (sendMessage_disconnected silentEnv .customer sampleMessage freshNode
    (by decide)).2.2.1⟩

/-- The PostMessage adapter rejects: no window is ever found. -/
theorem sendViaPostMessage_rejected (env : SendEnv) (platform : Platform) (message : Message) :
    sendViaPostMessage env platform message = .rejected := by
  simp [sendViaPostMessage, findPlatformWindow]

/-- Full description of a send to a connected peer. -/
theorem sendMessage_connected (env : SendEnv) (platform : Platform) (message : Message)
    (s : Node) (h : (s.connections.get platform).connected = true) :
    (sendMessage env platform message s).value = .ok (firstResponse env s platform message) ∧
    (sendMessage env platform message s).tried
      = upToFirst (fun a => (runAdapter env s platform (stamp env s message) a).response.isSome)
          adapterOrder ∧
    (sendMessage env platform message s).node
      = (match firstResponse env s platform message with
         | some _ => s
         | none => queueMessage env.queuedAt platform (stamp env s message) s) ∧
    (sendMessage env platform message s).message = stamp env s message := by
  simp only [sendMessage, h, adapterOrder, List.findSome?, upToFirst, runAdapter, firstResponse,
    stamp]
  simp only [Bool.not_true, Bool.false_eq_true, if_false]
  simp only [sendViaPostMessage_rejected, attempt, Outcome.response, Option.isNone_none, if_true,
    Option.isSome_none, Bool.false_eq_true, if_false, List.nil_append]
  rcases sendViaBroadcastChannel env platform
      { message with messageId := some (generateMessageId env s) } with _ | v2
  · rcases sendViaLocalStorage env s platform
        { message with messageId := some (generateMessageId env s) } with _ | v3
    · rcases sendViaFetch env platform
          { message with messageId := some (generateMessageId env s) } with _ | v4
      · simp
      · cases v4 <;> simp
    · cases v3
      · rcases sendViaFetch env platform
            { message with messageId := some (generateMessageId env s) } with _ | v4
        · simp
        · cases v4 <;> simp
      · simp
  · cases v2
    · rcases sendViaLocalStorage env s platform
          { message with messageId := some (generateMessageId env s) } with _ | v3
      · rcases sendViaFetch env platform
            { message with messageId := some (generateMessageId env s) } with _ | v4
        · simp
        · cases v4 <;> simp
      · cases v3
        · rcases sendViaFetch env platform
              { message with messageId := some (generateMessageId env s) } with _ | v4
          · simp
          · cases v4 <;> simp
        · simp
    · simp

theorem sendMessage_platform (env : SendEnv) (platform : Platform) (message : Message)
    (s : Node) : (sendMessage env platform message s).platform = platform := by
  cases h : (s.connections.get platform).connected with
  | false => simp [sendMessage, h]
  | true =>
    simp only [sendMessage, h]
    simp only [Bool.not_true, Bool.false_eq_true, if_false]
    split <;> rfl

/-- A call of `sendMessage` never throws. -/
theorem sendMessage_never_throws (env : SendEnv) (platform : Platform) (message : Message)
    (s : Node) : ∃ v, (sendMessage env platform message s).value = .ok v := by
  cases h : (s.connections.get platform).connected with
  | false => exact ⟨none, by simp [sendMessage, h]⟩
  | true => exact ⟨_, (sendMessage_connected env platform message s h).1⟩

/-- C2: for a send to a connected peer, whatever the four adapters do, exactly one of two
things holds. Either some adapter produces a response: then the call returns a response
(not `null`) and the node, its queue included, is unchanged. Or no adapter produces a
response: then the call returns `null` without throwing and the queue has gained exactly one
entry, for that peer, holding the (stamped) message with `attempts = 0`. -/
theorem sendMessage_response_or_queued (env : SendEnv) (platform : Platform)
    (message : Message) (s : Node) (h : (s.connections.get platform).connected = true) :
    ((∃ a, (runAdapter env s platform (stamp env s message) a).response ≠ none) ∧
      (∃ r, (sendMessage env platform message s).value = .ok (some r)) ∧
      (sendMessage env platform message s).node = s) ∨
    ((∀ a, (runAdapter env s platform (stamp env s message) a).response = none) ∧
      (sendMessage env platform message s).value = .ok none ∧
      (sendMessage env platform message s).node.messageQueue
        = s.messageQueue ++ [{ platform := platform, message := stamp env s message,
                               timestamp := env.queuedAt, attempts := 0 }]) := by
  obtain ⟨hv, -, hn, -⟩ := sendMessage_connected env platform message s h
  rw [hv, hn]
  cases hf : firstResponse env s platform message with
  | none =>
    right
    refine ⟨?_, rfl, by simp [queueMessage]⟩
    intro a
    simp only [firstResponse, adapterOrder, List.findSome?_eq_none_iff] at hf
    exact hf a (by cases a <;> simp)
  | some r =>
    left
    refine ⟨?_, ⟨r, rfl⟩, rfl⟩
    simp only [firstResponse] at hf
    obtain ⟨a, -, ha⟩ := List.exists_of_findSome?_eq_some hf
    exact ⟨a, by simp [ha]⟩

/-- Witness of C2: on the linked node the broadcast channel answers. -/
theorem sendMessage_response_or_queued_witness :
    (linkedNode.connections.get .customer).connected = true ∧
    (((∃ a, (runAdapter echoEnv linkedNode .customer (stamp echoEnv linkedNode sampleMessage)
          a).response ≠ none) ∧
      (∃ r, (sendMessage echoEnv .customer sampleMessage linkedNode).value = .ok (some r)) ∧
      (sendMessage echoEnv .customer sampleMessage linkedNode).node = linkedNode) ∨
    ((∀ a, (runAdapter echoEnv linkedNode .customer (stamp echoEnv linkedNode sampleMessage)
          a).response = none) ∧
      (sendMessage echoEnv .customer sampleMessage linkedNode).value = .ok none ∧
      (sendMessage echoEnv .customer sampleMessage linkedNode).node.messageQueue
        = linkedNode.messageQueue ++
          [{ platform := .customer, message := stamp echoEnv linkedNode sampleMessage,
             timestamp := echoEnv.queuedAt, attempts := 0 }])) :=
  ⟨by decide, sendMessage_response_or_queued echoEnv .customer sampleMessage linkedNode
    (by decide)⟩

/-- C3: for a connected peer the adapters are tried in the order PostMessage,
BroadcastChannel, LocalStorage, Fetch; the call returns the response of the first adapter in
that order that produces one (`null` if none does), and the adapters invoked are exactly those
up to and including that first one. -/
theorem sendMessage_first_response_wins (env : SendEnv) (platform : Platform)
    (message : Message) (s : Node) (h : (s.connections.get platform).connected = true) :
    adapterOrder = [.postMessage, .broadcastChannel, .localStorage, .fetch] ∧
    (sendMessage env platform message s).value
      = .ok (adapterOrder.findSome? (fun a =>
          (runAdapter env s platform (stamp env s message) a).response)) ∧
    (sendMessage env platform message s).tried
      = upToFirst (fun a => (runAdapter env s platform (stamp env s message) a).response.isSome)
          adapterOrder :=
  ⟨rfl, (sendMessage_connected env platform message s h).1,
    (sendMessage_connected env platform message s h).2.1⟩

/-- Witness of C3: the broadcast channel answers, so the last two adapters are not invoked. -/
theorem sendMessage_first_response_wins_witness :
    (linkedNode.connections.get .customer).connected = true ∧
    (sendMessage echoEnv .customer sampleMessage linkedNode).tried
      = upToFirst (fun a => (runAdapter echoEnv linkedNode .customer
          (stamp echoEnv linkedNode sampleMessage) a).response.isSome) adapterOrder :=
  ⟨by decide, (sendMessage_first_response_wins echoEnv .customer sampleMessage linkedNode
    (by decide)).2.2⟩

/-! ## Local stores -/

theorem upsertByUsername_nil (user : Obj) : upsertByUsername [] user = [user] := rfl

theorem upsertByUsername_cons (u : Obj) (t : List Obj) (user : Obj) :
    upsertByUsername (u :: t) user
      = if u.get "username" = user.get "username" then Obj.spread u user :: t
        else u :: upsertByUsername t user := by
  by_cases h : u.get "username" = user.get "username"
  · simp [upsertByUsername, findIndex, h]
  · simp only [upsertByUsername, findIndex, h, if_false, beq_iff_eq]
    cases findIndex (fun u => u.get "username" == user.get "username") t with
    | none => simp
    | some i =>
      simp only [Option.map_some', List.getElem?_cons_succ, List.set_cons_succ]
      cases t[i]? <;> simp

theorem replaceOrPush_nil (tx : Obj) : replaceOrPush [] tx = [tx] := rfl

theorem replaceOrPush_cons (a : Obj) (t : List Obj) (tx : Obj) :
    replaceOrPush (a :: t) tx
      = if a.get "id" = tx.get "id" then tx :: t else a :: replaceOrPush t tx := by
  by_cases h : a.get "id" = tx.get "id"
  · simp [replaceOrPush, findIndex, h]
  · simp only [replaceOrPush, findIndex, h, if_false, beq_iff_eq]
    cases findIndex (fun t => t.get "id" == tx.get "id") t with
    | none => simp
    | some i => simp

theorem pushIfAbsent_nil (tx : Obj) : pushIfAbsent [] tx = [tx] := rfl

theorem pushIfAbsent_eq (list : List Obj) (tx : Obj) :
    pushIfAbsent list tx
      = if ∃ t ∈ list, t.get "id" = tx.get "id" then list else list ++ [tx] := by
  unfold pushIfAbsent
  by_cases h : ∃ t ∈ list, t.get "id" = tx.get "id"
  · have h2 : (list.find? (fun t => t.get "id" == tx.get "id")).isNone = false := by
      cases hf : list.find? (fun t => t.get "id" == tx.get "id") with
      | some _ => rfl
      | none =>
        obtain ⟨t, ht, he⟩ := h
        have := List.find?_eq_none.1 hf t ht
        simp [he] at this
    simp [h2, h]
  · have h2 : list.find? (fun t => t.get "id" == tx.get "id") = none := by
      apply List.find?_eq_none.2
      intro t ht
      simp only [beq_iff_eq]
      exact fun he => h ⟨t, ht, he⟩
    simp [h2, h]

theorem findIndex_some {α : Type} (p : α → Bool) (l : List α) (i : Nat)
    (h : findIndex p l = some i) : ∃ u, l[i]? = some u ∧ p u = true := by
  induction l generalizing i with
  | nil => simp [findIndex] at h
  | cons a t ih =>
    by_cases hp : p a = true
    · simp only [findIndex, hp, if_true, Option.some.injEq] at h
      subst h
      exact ⟨a, by simp, hp⟩
    · simp only [findIndex, hp, Bool.false_eq_true, if_false] at h
      cases hf : findIndex p t with
      | none => simp [hf] at h
      | some j =>
        simp only [hf, Option.map_some', Option.some.injEq] at h
        subst h
        simpa using ih j hf

theorem findIndex_set {α : Type} (p : α → Bool) (l : List α) (i : Nat) (x : α)
    (h : findIndex p l = some i) (hx : p x = true) : findIndex p (l.set i x) = some i := by
  induction l generalizing i with
  | nil => simp [findIndex] at h
  | cons a t ih =>
    by_cases hp : p a = true
    · simp only [findIndex, hp, if_true, Option.some.injEq] at h
      subst h
      simp [findIndex, hx]
    · simp only [findIndex, hp, Bool.false_eq_true, if_false] at h
      cases hf : findIndex p t with
      | none => simp [hf] at h
      | some j =>
        simp only [hf, Option.map_some', Option.some.injEq] at h
        subst h
        simp [findIndex, hp, ih j hf]

theorem replaceOrPush_idem (list : List Obj) (tx : Obj) :
    replaceOrPush (replaceOrPush list tx) tx = replaceOrPush list tx := by
  induction list with
  | nil => simp [replaceOrPush_nil, replaceOrPush_cons]
  | cons a t ih =>
    by_cases h : a.get "id" = tx.get "id"
    · simp [replaceOrPush_cons, h]
    · simp [replaceOrPush_cons, h, ih]

theorem upsertByUsername_idem (list : List Obj) (user : Obj) :
    upsertByUsername (upsertByUsername list user) user = upsertByUsername list user := by
  induction list with
  | nil => simp [upsertByUsername_nil, upsertByUsername_cons, Obj.spread_same]
  | cons a t ih =>
    by_cases h : a.get "username" = user.get "username"
    · have h2 : (Obj.spread a user).get "username" = user.get "username" := by
        rw [Obj.get_spread_eq]
        cases hu : user.get "username" with
        | none => simpa [hu] using h
        | some v => rfl
      simp [upsertByUsername_cons, h, h2, Obj.spread_twice]
    · simp [upsertByUsername_cons, h, ih]

theorem assignBalances_username (user balanceData : Obj) :
    (assignBalances user balanceData).get "username" = user.get "username" := by
  unfold assignBalances
  cases balanceData.get "coinBalance" <;> cases balanceData.get "cashBalance" <;>
    simp [Obj.get_set_other]

theorem assignBalances_idem (user balanceData : Obj) :
    assignBalances (assignBalances user balanceData) balanceData
      = assignBalances user balanceData := by
  unfold assignBalances
  cases balanceData.get "coinBalance" with
  | none =>
    cases balanceData.get "cashBalance" with
    | none => rfl
    | some d => exact Obj.set_of_get _ _ _ (Obj.get_set_same _ _ _)
  | some c =>
    cases balanceData.get "cashBalance" with
    | none => exact Obj.set_of_get _ _ _ (Obj.get_set_same _ _ _)
    | some d =>
      simp only
      have h1 : ((user.set "coinBalance" c).set "cashBalance" d).set "coinBalance" c
          = (user.set "coinBalance" c).set "cashBalance" d := by
        apply Obj.set_of_get
        rw [Obj.get_set_other _ _ _ _ (by decide)]
        exact Obj.get_set_same _ _ _
      rw [h1]
      exact Obj.set_of_get _ _ _ (Obj.get_set_same _ _ _)

theorem updateLocalBalance_idem (balanceData : Obj) (st : Storage) :
    updateLocalBalance balanceData (updateLocalBalance balanceData st)
      = updateLocalBalance balanceData st := by
  cases hf : findIndex (fun u => u.get "username" == balanceData.get "username")
      (st.bankDB.getD {}).users with
  | none =>
    have h1 : updateLocalBalance balanceData st = st := by simp [updateLocalBalance, hf]
    rw [h1, h1]
  | some i =>
    obtain ⟨u, hu, hp⟩ := findIndex_some _ _ _ hf
    have hp2 : (fun u => u.get "username" == balanceData.get "username")
        (assignBalances u balanceData) = true := by
      simp only [beq_iff_eq] at hp ⊢
      rw [assignBalances_username]; exact hp
    have hlt : i < (st.bankDB.getD {}).users.length := by
      rcases Nat.lt_or_ge i (st.bankDB.getD {}).users.length with h | h
      · exact h
      · rw [List.getElem?_eq_none h] at hu; cases hu
    have h1 : updateLocalBalance balanceData st
        = { st with bankDB := some { (st.bankDB.getD {}) with
              users := (st.bankDB.getD {}).users.set i (assignBalances u balanceData) } } := by
      simp [updateLocalBalance, hf, hu]
    have hf2 := findIndex_set _ _ i (assignBalances u balanceData) hf hp2
    rw [h1]
    simp only [updateLocalBalance, Option.getD_some, hf2]
    simp [List.getElem?_set_self hlt, assignBalances_idem]

/-- C4: the three inbound handlers that change the stores are idempotent: for every store and
every payload, applying the same `TRANSACTION` payload (`updateLocalTransaction`), the same
`BALANCE_UPDATE` payload (`updateLocalBalance`) or the same `USER_UPDATE` payload
(`updateLocalUser`) twice in a row gives exactly the store that applying it once gives. -/
theorem inbound_updates_idempotent (st : Storage) (payload : Obj) :
    updateLocalTransaction payload (updateLocalTransaction payload st)
      = updateLocalTransaction payload st ∧
    updateLocalBalance payload (updateLocalBalance payload st)
      = updateLocalBalance payload st ∧
    updateLocalUser payload (updateLocalUser payload st) = updateLocalUser payload st := by
  refine ⟨?_, updateLocalBalance_idem payload st, ?_⟩
  · simp [updateLocalTransaction, replaceOrPush_idem]
  · simp [updateLocalUser, updateLocalUsers, upsertByUsername_idem]

theorem spread_username (existing user : Obj)
    (h : existing.get "username" = user.get "username") :
    (Obj.spread existing user).get "username" = user.get "username" := by
  rw [Obj.get_spread_eq]
  cases hu : user.get "username" with
  | none => simpa [hu] using h
  | some v => rfl

theorem upsertByUsername_match (pre : List Obj) (existing : Obj) (post : List Obj) (user : Obj)
    (hpre : ∀ u ∈ pre, u.get "username" ≠ user.get "username")
    (h : existing.get "username" = user.get "username") :
    upsertByUsername (pre ++ existing :: post) user
      = pre ++ Obj.spread existing user :: post := by
  induction pre with
  | nil => simp [upsertByUsername_cons, h]
  | cons a t ih =>
    have ha : a.get "username" ≠ user.get "username" := hpre a (List.mem_cons_self _ _)
    have ih2 := ih (fun u hu => hpre u (List.mem_cons_of_mem _ hu))
    simp [upsertByUsername_cons, ha, ih2]

theorem upsertByUsername_no_match (list : List Obj) (user : Obj)
    (h : ∀ u ∈ list, u.get "username" ≠ user.get "username") :
    upsertByUsername list user = list ++ [user] := by
  induction list with
  | nil => rfl
  | cons a t ih =>
    have ha : a.get "username" ≠ user.get "username" := h a (List.mem_cons_self _ _)
    have ih2 := ih (fun u hu => h u (List.mem_cons_of_mem _ hu))
    simp [upsertByUsername_cons, ha, ih2]

/-- After the upsert of `user`, the first record with its username carries every field of
`user`. -/
theorem find_upsertByUsername_self (list : List Obj) (user : Obj) :
    ∃ r, (upsertByUsername list user).find? (fun u => u.get "username" == user.get "username")
        = some r ∧ ∀ k v, user.get k = some v → r.get k = some v := by
  induction list with
  | nil => exact ⟨user, by simp [upsertByUsername_nil], fun _ _ h => h⟩
  | cons a t ih =>
    by_cases h : a.get "username" = user.get "username"
    · refine ⟨Obj.spread a user, ?_, ?_⟩
      · simp [upsertByUsername_cons, h, spread_username a user h]
      · intro k v hk
        rw [Obj.get_spread_eq, hk]
    · obtain ⟨r, hr, hf⟩ := ih
      exact ⟨r, by simp [upsertByUsername_cons, h, hr], hf⟩

/-- The upsert of a record with another username does not change which record is found for
`name`. -/
theorem find_upsertByUsername_other (list : List Obj) (user : Obj) (name : Option JVal)
    (h : user.get "username" ≠ name) :
    (upsertByUsername list user).find? (fun u => u.get "username" == name)
      = list.find? (fun u => u.get "username" == name) := by
  induction list with
  | nil => simp [upsertByUsername_nil, h]
  | cons a t ih =>
    have hfind : ∀ (x : Obj) (l : List Obj), x.get "username" ≠ name →
        (x :: l).find? (fun u => u.get "username" == name)
          = l.find? (fun u => u.get "username" == name) := by
      intro x l hx
      simp [List.find?_cons, hx]
    rw [upsertByUsername_cons]
    by_cases ha : a.get "username" = user.get "username"
    · have h1 : (Obj.spread a user).get "username" ≠ name := by
        rw [spread_username a user ha]; exact h
      have h2 : a.get "username" ≠ name := by rw [ha]; exact h
      rw [if_pos ha, hfind _ _ h1, hfind _ _ h2]
    · rw [if_neg ha]
      by_cases hn : a.get "username" = name
      · simp [List.find?_cons, hn]
      · rw [hfind _ _ hn, hfind _ _ hn, ih]

theorem find_foldl_upsertByUsername_other (post list : List Obj) (name : Option JVal)
    (h : ∀ u ∈ post, u.get "username" ≠ name) :
    (post.foldl upsertByUsername list).find? (fun u => u.get "username" == name)
      = list.find? (fun u => u.get "username" == name) := by
  induction post generalizing list with
  | nil => rfl
  | cons a t ih =>
    simp only [List.foldl_cons]
    rw [ih _ (fun u hu => h u (List.mem_cons_of_mem _ hu))]
    exact find_upsertByUsername_other list a name (h a (List.mem_cons_self _ _))

/-- The value applied last wins: after merging `pre ++ user :: post`, where no record of
`post` has the username of `user`, the record found for that username carries every field
of `user`. -/
theorem foldl_upsertByUsername_last_wins (list pre : List Obj) (user : Obj) (post : List Obj)
    (h : ∀ u ∈ post, u.get "username" ≠ user.get "username") :
    ∃ r, ((pre ++ user :: post).foldl upsertByUsername list).find?
        (fun u => u.get "username" == user.get "username") = some r ∧
      ∀ k v, user.get k = some v → r.get k = some v := by
  simp only [List.foldl_append, List.foldl_cons]
  rw [find_foldl_upsertByUsername_other post _ _ h]
  exact find_upsertByUsername_self _ user

/-- C5: keyed-upsert merge (`updateLocalUsers` for accounts in the bank and the customer
database, `updateLocalInvestments` for investor profiles). The merged lists are the left folds
of the upsert step over the incoming list. In one step, an incoming record whose username
matches a stored record replaces the first such record by `{ ...stored, ...incoming }`, whose
fields are those of the incoming record where it carries them and those of the stored record
elsewhere; an incoming record with no match is appended. The value applied last wins, within
one snapshot and across two successive merges (which equal one merge of the concatenation),
and merging two snapshots in the two orders can give different stores. -/
theorem keyed_upsert_merge :
    (∀ (incoming : List Obj) (st : Storage),
      updateLocalUsers incoming st
        = { st with
            bankDB := some { users := incoming.foldl upsertByUsername (st.bankDB.getD {}).users,
                             transactions := (st.bankDB.getD {}).transactions },
            customerDB := some
              { customers := incoming.foldl upsertByUsername (st.customerDB.getD {}).customers,
                transactions := (st.customerDB.getD {}).transactions } } ∧
      updateLocalInvestments incoming st
        = { st with
            investmentDB := some
              { investors :=
                  incoming.foldl upsertByUsername (st.investmentDB.getD {}).investors } }) ∧
    (∀ (pre : List Obj) (stored : Obj) (post : List Obj) (incoming : Obj),
      (∀ u ∈ pre, u.get "username" ≠ incoming.get "username") →
      stored.get "username" = incoming.get "username" →
      upsertByUsername (pre ++ stored :: post) incoming
        = pre ++ Obj.spread stored incoming :: post) ∧
    (∀ (stored incoming : Obj) (k : String),
      (Obj.spread stored incoming).get k
        = (match incoming.get k with | some v => some v | none => stored.get k)) ∧
    (∀ (list : List Obj) (incoming : Obj),
      (∀ u ∈ list, u.get "username" ≠ incoming.get "username") →
      upsertByUsername list incoming = list ++ [incoming]) ∧
    (∀ (list pre : List Obj) (incoming : Obj) (post : List Obj),
      (∀ u ∈ post, u.get "username" ≠ incoming.get "username") →
      ∃ r, ((pre ++ incoming :: post).foldl upsertByUsername list).find?
          (fun u => u.get "username" == incoming.get "username") = some r ∧
        ∀ k v, incoming.get k = some v → r.get k = some v) ∧
    (∀ (first second : List Obj) (st : Storage),
      updateLocalUsers second (updateLocalUsers first st) = updateLocalUsers (first ++ second) st ∧
      updateLocalInvestments second (updateLocalInvestments first st)
        = updateLocalInvestments (first ++ second) st) ∧
    (updateLocalUsers [account "alice" 2] (updateLocalUsers [account "alice" 1] {})
        ≠ updateLocalUsers [account "alice" 1] (updateLocalUsers [account "alice" 2] {}) ∧
      updateLocalInvestments [account "alice" 2] (updateLocalInvestments [account "alice" 1] {})
        ≠ updateLocalInvestments [account "alice" 1]
            (updateLocalInvestments [account "alice" 2] {})) := by
  refine ⟨fun incoming st => ⟨rfl, rfl⟩, upsertByUsername_match, Obj.get_spread_eq,
    upsertByUsername_no_match, foldl_upsertByUsername_last_wins, ?_, by decide, by decide⟩
  intro first second st
  constructor
  · simp [updateLocalUsers, List.foldl_append]
  · simp [updateLocalInvestments, List.foldl_append]

/-- Witness of C5: the stored account of alice keeps its e-mail address and takes the incoming
balance. -/
theorem keyed_upsert_merge_witness :
    (∀ u ∈ [account "bob" 5], u.get "username" ≠ (account "alice" 9).get "username") ∧
    (accountWithEmail "alice" 1 "a@x").get "username" = (account "alice" 9).get "username" ∧
    upsertByUsername ([account "bob" 5] ++ accountWithEmail "alice" 1 "a@x" :: [])
        (account "alice" 9)
      = [account "bob" 5] ++ Obj.spread (accountWithEmail "alice" 1 "a@x") (account "alice" 9)
          :: [] :=
  ⟨by decide, by decide, keyed_upsert_merge.2.1 [account "bob" 5]
    (accountWithEmail "alice" 1 "a@x") [] (account "alice" 9) (by decide) (by decide)⟩

theorem foldl_pushIfAbsent_pair (incoming : List Obj) (bank customer : List Obj) :
    incoming.foldl
        (fun (lists : List Obj × List Obj) tx =>
          (pushIfAbsent lists.1 tx, pushIfAbsent lists.2 tx)) (bank, customer)
      = (incoming.foldl pushIfAbsent bank, incoming.foldl pushIfAbsent customer) := by
  induction incoming generalizing bank customer with
  | nil => rfl
  | cons a t ih => simp only [List.foldl_cons]; rw [ih]

theorem foldl_pushIfAbsent_append (incoming : List Obj) (list : List Obj) :
    ∃ added, incoming.foldl pushIfAbsent list = list ++ added := by
  induction incoming generalizing list with
  | nil => exact ⟨[], by simp⟩
  | cons a t ih =>
    simp only [List.foldl_cons]
    obtain ⟨added, h⟩ := ih (pushIfAbsent list a)
    rw [h, pushIfAbsent_eq]
    by_cases hx : ∃ x ∈ list, x.get "id" = a.get "id"
    · exact ⟨added, by simp [hx]⟩
    · exact ⟨a :: added, by simp [hx]⟩

/-- C6: append-only merge (`updateLocalTransactions`). For every store and every incoming
list, the bank and the customer transaction lists after the merge are the lists before the
merge followed by the appended transactions, so every stored transaction stays, unchanged, at
its position; the accounts and the investment database are untouched; the merge runs through
the incoming list in order, and one incoming transaction is appended to a list exactly when
no transaction with its id is in that list at that moment. -/
theorem append_only_merge (incoming : List Obj) (st : Storage) :
    (∃ addedBank addedCustomer,
      updateLocalTransactions incoming st
        = { st with
            bankDB := some
              { users := (st.bankDB.getD {}).users,
                transactions := (st.bankDB.getD {}).transactions ++ addedBank },
            customerDB := some
              { customers := (st.customerDB.getD {}).customers,
                transactions := (st.customerDB.getD {}).transactions ++ addedCustomer } }) ∧
    ((updateLocalTransactions incoming st).bankDB.getD {}).transactions
      = incoming.foldl pushIfAbsent (st.bankDB.getD {}).transactions ∧
    ((updateLocalTransactions incoming st).customerDB.getD {}).transactions
      = incoming.foldl pushIfAbsent (st.customerDB.getD {}).transactions ∧
    (∀ (list : List Obj) (tx : Obj),
      pushIfAbsent list tx
        = if ∃ t ∈ list, t.get "id" = tx.get "id" then list else list ++ [tx]) := by
  refine ⟨?_, ?_, ?_, pushIfAbsent_eq⟩
  · obtain ⟨ab, hab⟩ := foldl_pushIfAbsent_append incoming (st.bankDB.getD {}).transactions
    obtain ⟨ac, hac⟩ := foldl_pushIfAbsent_append incoming (st.customerDB.getD {}).transactions
    refine ⟨ab, ac, ?_⟩
    simp only [updateLocalTransactions, foldl_pushIfAbsent_pair, hab, hac]
  · simp [updateLocalTransactions, foldl_pushIfAbsent_pair]
  · simp [updateLocalTransactions, foldl_pushIfAbsent_pair]

/-! ## Reconciliation -/

/-- The response that `handleSyncRequest` builds carries the snapshot under `data` and has no
top-level `users`, `transactions` or `investments`, so `updateLocalData` merges nothing. -/
theorem updateLocalData_handleSyncRequest (now : String) (message : Message) (peer : Node)
    (st : Storage) :
    updateLocalData (handleSyncRequest now message peer).2.value st = st := rfl

/-- C7, evaluation of the code: the main-bank node syncs with the customer node, which answers
with the `SYNC_RESPONSE` built by its `handleSyncRequest` from its snapshot (alice with
balance 2). The response is returned by `sendMessage` and `lastSync` is updated, but the
stores of the requester are unchanged, and so they differ from the merge of that snapshot. -/
theorem sync_response_not_merged :
    (syncWithPlatform (syncAnsweredBy customerNode) .customer bankNode).send.value
      = .ok (some (handleSyncRequest "t1"
          (syncWithPlatform (syncAnsweredBy customerNode) .customer bankNode).send.message
          customerNode).2.value) ∧
    (handleSyncRequest "t1"
        (syncWithPlatform (syncAnsweredBy customerNode) .customer bankNode).send.message
        customerNode).2.value.data = .snapshot (getLocalData customerNode.storage) ∧
    ((syncWithPlatform (syncAnsweredBy customerNode) .customer bankNode).node.connections.get
        .customer).lastSync = some "t2" ∧
    (syncWithPlatform (syncAnsweredBy customerNode) .customer bankNode).node.storage
      = bankNode.storage ∧
    (syncWithPlatform (syncAnsweredBy customerNode) .customer bankNode).node.storage
      ≠ mergeSnapshot (getLocalData customerNode.storage) bankNode.storage := by
  refine ⟨by rfl, by rfl, by decide, by decide, by decide⟩

/-- C8, evaluation of the code: the main bank stores alice with balance 1 and the customer
node stores her with balance 2. The main bank syncs with the customer node and then the
customer node syncs with the main bank, each `SYNC` answered by the `handleSyncRequest` of the
other node. Afterwards the main bank still stores balance 1 and the customer node still
stores balance 2: the nodes have not converged. -/
theorem two_way_sync_does_not_converge :
    ((getLocalData (syncWithPlatform (syncAnsweredBy customerNode) .customer
        bankNode).node.storage).users.map (fun u => u.get "coinBalance")) = [some (.num 1)] ∧
    ((getLocalData (syncWithPlatform
        (syncAnsweredBy (syncWithPlatform (syncAnsweredBy customerNode) .customer bankNode).node)
        .mainBank customerNode).node.storage).users.map (fun u => u.get "coinBalance"))
      = [some (.num 2)] ∧
    (syncWithPlatform
        (syncAnsweredBy (syncWithPlatform (syncAnsweredBy customerNode) .customer bankNode).node)
        .mainBank customerNode).send.value
      = .ok (some (handleSyncRequest "t1"
          (syncWithPlatform
            (syncAnsweredBy
              (syncWithPlatform (syncAnsweredBy customerNode) .customer bankNode).node)
            .mainBank customerNode).send.message
          (syncWithPlatform (syncAnsweredBy customerNode) .customer bankNode).node).2.value) := by
  refine ⟨by decide, by decide, by rfl⟩

/-! ## Message queue -/

theorem sendMessage_node_of_disconnected (env : SendEnv) (platform : Platform)
    (message : Message) (s : Node) (h : (s.connections.get platform).connected = false) :
    (sendMessage env platform message s).node = queueMessage env.queuedAt platform message s := by
  simp [sendMessage, h]

theorem sendAll_disconnected (ms : List Message) (env : Nat → SendEnv) (platform : Platform)
    (s : Node) (h : (s.connections.get platform).connected = false) :
    (sendAll env platform ms s).messageQueue.map (fun e => (e.platform, e.message))
      = s.messageQueue.map (fun e => (e.platform, e.message)) ++ ms.map (fun m => (platform, m)) ∧
    (sendAll env platform ms s).connections = s.connections := by
  induction ms generalizing env s with
  | nil => simp [sendAll]
  | cons m t ih =>
    have hn := sendMessage_node_of_disconnected (env 0) platform m s h
    have h2 : ((sendMessage (env 0) platform m s).node.connections.get platform).connected
        = false := by rw [hn]; exact h
    obtain ⟨ih1, ih2⟩ := ih (fun i => env (i + 1)) (sendMessage (env 0) platform m s).node h2
    simp only [sendAll]
    rw [ih1, ih2, hn]
    simp [queueMessage]

theorem processMessageQueue_all_delivered (q : List QueuedMessage) (fuel : Nat)
    (env : Nat → SendEnv) (s : Node) (hq : s.messageQueue = q)
    (hc : ∀ e ∈ q, (s.connections.get e.platform).connected = true)
    (hd : ∀ i n, ∀ e ∈ q, (firstResponse (env i) n e.platform e.message).isSome = true)
    (hf : q.length < fuel) :
    (processMessageQueue fuel env s).finished = true ∧
    (processMessageQueue fuel env s).node.messageQueue = [] ∧
    (processMessageQueue fuel env s).sends.map (fun r => (r.platform, unstamped r.message))
      = q.map (fun e => (e.platform, unstamped e.message)) ∧
    (∀ r ∈ (processMessageQueue fuel env s).sends, ∃ resp, r.value = .ok (some resp)) := by
  induction q generalizing fuel env s with
  | nil =>
    cases fuel with
    | zero => simp at hf
    | succ f => simp [processMessageQueue, hq]
  | cons e rest ih =>
    cases fuel with
    | zero => simp at hf
    | succ f =>
      have hce : (s.connections.get e.platform).connected = true := hc e (List.mem_cons_self _ _)
      have hce2 : (({ s with messageQueue := rest } : Node).connections.get e.platform).connected
          = true := hce
      obtain ⟨hv, -, hn, hm⟩ :=
        sendMessage_connected (env 0) e.platform e.message { s with messageQueue := rest } hce2
      obtain ⟨resp, hresp⟩ := Option.isSome_iff_exists.1
        (hd 0 { s with messageQueue := rest } e (List.mem_cons_self _ _))
      rw [hresp] at hv hn
      simp only at hn
      have ih2 := ih f (fun i => env (i + 1)) { s with messageQueue := rest } rfl
        (fun x hx => hc x (List.mem_cons_of_mem _ hx))
        (fun i n x hx => hd (i + 1) n x (List.mem_cons_of_mem _ hx))
        (by simpa using hf)
      simp only [processMessageQueue, hq, hce, if_true, hv, hn]
      obtain ⟨i1, i2, i3, i4⟩ := ih2
      refine ⟨i1, i2, ?_, ?_⟩
      · simp only [List.map_cons, i3, sendMessage_platform, hm]
        rfl
      · intro r hr
        rcases List.mem_cons.1 hr with h1 | h1
        · exact ⟨resp, by rw [h1, hv]⟩
        · exact i4 r h1

theorem echoEnv_delivers (n : Node) (platform : Platform) (m : Message) :
    (firstResponse echoEnv n platform m).isSome = true := by
  simp [firstResponse, adapterOrder, runAdapter, sendViaPostMessage, findPlatformWindow,
    sendViaBroadcastChannel, echoEnv, Outcome.response]

theorem silentEnv_fails (n : Node) (platform : Platform) (m : Message) :
    firstResponse silentEnv n platform m = none := by
  simp [firstResponse, adapterOrder, runAdapter, sendViaPostMessage, findPlatformWindow,
    sendViaBroadcastChannel, sendViaLocalStorage, sendViaFetch, silentEnv, Outcome.response]

/-- C9: queue FIFO. Start from a node with an empty queue and peer `platform` not connected;
send `ms` to that peer, in order (each send queues its message). Let the peer then be
connected, the queue being the one those sends left, and let every delivery succeed. Then
`processMessageQueue` (with fuel for one more test of the loop condition than there are
messages) returns, its calls of `sendMessage` are for that peer and carry the messages of
`ms` in the order of `ms` (each with a new `messageId`), every call gets a response, and
the queue is empty afterwards. -/
theorem queue_fifo (env0 env : Nat → SendEnv) (platform : Platform) (ms : List Message)
    (s s2 : Node) (fuel : Nat)
    (hempty : s.messageQueue = [])
    (hdis : (s.connections.get platform).connected = false)
    (hq : s2.messageQueue = (sendAll env0 platform ms s).messageQueue)
    (hcon : (s2.connections.get platform).connected = true)
    (hdel : ∀ i n m, (firstResponse (env i) n platform m).isSome = true)
    (hfuel : ms.length < fuel) :
    (processMessageQueue fuel env s2).finished = true ∧
    (processMessageQueue fuel env s2).node.messageQueue = [] ∧
    (processMessageQueue fuel env s2).sends.map (fun r => (r.platform, unstamped r.message))
      = ms.map (fun m => (platform, unstamped m)) ∧
    (∀ r ∈ (processMessageQueue fuel env s2).sends, ∃ resp, r.value = .ok (some resp)) := by
  have hA := (sendAll_disconnected ms env0 platform s hdis).1
  rw [← hq, hempty] at hA
  simp only [List.map_nil, List.nil_append] at hA
  have hplat : ∀ e ∈ s2.messageQueue, e.platform = platform := by
    intro e he
    have : (e.platform, e.message) ∈ ms.map (fun m => (platform, m)) := by
      rw [← hA]; exact List.mem_map.2 ⟨e, he, rfl⟩
    obtain ⟨m, -, hm⟩ := List.mem_map.1 this
    exact (congrArg Prod.fst hm).symm
  have hlen : s2.messageQueue.length = ms.length := by
    have := congrArg List.length hA
    simpa using this
  obtain ⟨h1, h2, h3, h4⟩ := processMessageQueue_all_delivered s2.messageQueue fuel env s2 rfl
    (fun e he => by rw [hplat e he]; exact hcon)
    (fun i n e he => by rw [hplat e he]; exact hdel i n e.message)
    (by rw [hlen]; exact hfuel)
  refine ⟨h1, h2, ?_, h4⟩
  rw [h3]
  have := congrArg (List.map (fun x : Platform × Message => (x.1, unstamped x.2))) hA
  simpa [List.map_map, Function.comp] using this

/-- Witness of C9: two messages queued for the customer platform are handed over in order. -/
theorem queue_fifo_witness :
    freshNode.messageQueue = [] ∧
    (freshNode.connections.get .customer).connected = false ∧
    (reconnectedNode.connections.get .customer).connected = true ∧
    (processMessageQueue 3 (fun _ => echoEnv) reconnectedNode).node.messageQueue = [] ∧
    (processMessageQueue 3 (fun _ => echoEnv) reconnectedNode).sends.map
        (fun r => (r.platform, unstamped r.message))
      = [sampleMessage, otherMessage].map (fun m => (Platform.customer, unstamped m)) :=
  have h := queue_fifo (fun _ => silentEnv) (fun _ => echoEnv) .customer
    [sampleMessage, otherMessage] freshNode reconnectedNode 3 rfl (by decide) rfl (by decide)
    (fun _ n m => echoEnv_delivers n .customer m) (by decide)
  ⟨rfl, by decide, by decide, h.2.1, h.2.2.1⟩

theorem processMessageQueue_stuck (fuel : Nat) (env : Nat → SendEnv) (s : Node)
    (e : QueuedMessage) (hq : s.messageQueue = [e])
    (hc : (s.connections.get e.platform).connected = true)
    (hd : ∀ i n m, firstResponse (env i) n e.platform m = none) :
    (processMessageQueue fuel env s).finished = false ∧
    (processMessageQueue fuel env s).sends.length = fuel ∧
    (∀ r ∈ (processMessageQueue fuel env s).sends, r.value = .ok none) := by
  induction fuel generalizing env s e with
  | zero => simp [processMessageQueue]
  | succ f ih =>
    have hc2 : (({ s with messageQueue := [] } : Node).connections.get e.platform).connected
        = true := hc
    obtain ⟨hv, -, hn, -⟩ :=
      sendMessage_connected (env 0) e.platform e.message { s with messageQueue := [] } hc2
    rw [hd 0] at hv hn
    simp only at hn
    have ih2 := ih (fun i => env (i + 1))
      (queueMessage (env 0).queuedAt e.platform
        (stamp (env 0) { s with messageQueue := [] } e.message) { s with messageQueue := [] })
      { platform := e.platform,
        message := stamp (env 0) { s with messageQueue := [] } e.message,
        timestamp := (env 0).queuedAt, attempts := 0 }
      (by simp [queueMessage]) hc (fun i => hd (i + 1))
    simp only [processMessageQueue, hq, hc, if_true, hv, hn]
    obtain ⟨i1, i2, i3⟩ := ih2
    refine ⟨i1, by simp [i2], ?_⟩
    intro r hr
    rcases List.mem_cons.1 hr with h1 | h1
    · rw [h1, hv]
    · exact i3 r h1

/-- C10, evaluation of the code: the queue holds one message for the connected customer
platform and no adapter ever produces a response. After one pass of the loop the entry is
back in the queue with `attempts = 0` (the counter is not increased), and for every bound
`n` the loop is still running after `n` failed sends, so the message is attempted more than
`retryAttempts = 3` times and is never dropped. -/
theorem failed_delivery_requeued_uncounted :
    stuckNode.config.retryAttempts = 3 ∧
    (processMessageQueue 1 (fun _ => silentEnv) stuckNode).node.messageQueue
      = [{ platform := .customer, message := stamp silentEnv stuckNode sampleMessage,
           timestamp := "t0", attempts := 0 }] ∧
    (∀ n, (processMessageQueue n (fun _ => silentEnv) stuckNode).finished = false ∧
      (processMessageQueue n (fun _ => silentEnv) stuckNode).sends.length = n ∧
      (∀ r ∈ (processMessageQueue n (fun _ => silentEnv) stuckNode).sends,
        r.value = .ok none)) := by
  refine ⟨rfl, by decide, fun n => ?_⟩
  exact processMessageQueue_stuck n (fun _ => silentEnv) stuckNode
    { platform := .customer, message := sampleMessage, timestamp := "t", attempts := 0 }
    rfl (by decide) (fun _ n m => silentEnv_fails n .customer m)

/-- A call of `sendMessage` changes nothing of the node but the queue. -/
theorem sendMessage_node_frame (env : SendEnv) (platform : Platform) (message : Message)
    (s : Node) :
    (sendMessage env platform message s).node
      = { s with messageQueue := (sendMessage env platform message s).node.messageQueue } := by
  cases h : (s.connections.get platform).connected with
  | false => simp [sendMessage, h, queueMessage]
  | true =>
    obtain ⟨-, -, hn, -⟩ := sendMessage_connected env platform message s h
    rw [hn]
    cases firstResponse env s platform message <;> simp [queueMessage]

theorem sendMessage_connections_eq (env : SendEnv) (platform : Platform) (message : Message)
    (s : Node) : (sendMessage env platform message s).node.connections = s.connections := by
  rw [sendMessage_node_frame]

/-- One pass of the loop of `processMessageQueue` on a message whose peer is connected. -/
theorem processMessageQueue_connected_step (fuel : Nat) (env : Nat → SendEnv) (s : Node)
    (e : QueuedMessage) (rest : List QueuedMessage) (hq : s.messageQueue = e :: rest)
    (hc : (s.connections.get e.platform).connected = true) :
    processMessageQueue (fuel + 1) env s
      = { processMessageQueue fuel (fun i => env (i + 1))
            (sendMessage (env 0) e.platform e.message { s with messageQueue := rest }).node with
          sends := sendMessage (env 0) e.platform e.message { s with messageQueue := rest }
            :: (processMessageQueue fuel (fun i => env (i + 1))
                (sendMessage (env 0) e.platform e.message
                  { s with messageQueue := rest }).node).sends } := by
  obtain ⟨v, hv⟩ :=
    sendMessage_never_throws (env 0) e.platform e.message { s with messageQueue := rest }
  simp only [processMessageQueue, hq, hc, if_true, hv]

/-- One pass of the loop of `processMessageQueue` on a message whose peer is not connected. -/
theorem processMessageQueue_blocked_step (fuel : Nat) (env : Nat → SendEnv) (s : Node)
    (e : QueuedMessage) (rest : List QueuedMessage) (hq : s.messageQueue = e :: rest)
    (hc : (s.connections.get e.platform).connected = false) :
    processMessageQueue (fuel + 1) env s
      = { node := { s with messageQueue := rest ++ [e] }, sends := [], finished := true } := by
  simp [processMessageQueue, hq, hc]

theorem stamp_congr (env : SendEnv) (s1 s2 : Node) (m : Message)
    (h : s1.currentPlatform = s2.currentPlatform) : stamp env s1 m = stamp env s2 m := by
  simp [stamp, generateMessageId, currentPlatformText, h]

theorem firstResponse_congr (env : SendEnv) (s1 s2 : Node) (platform : Platform) (m : Message)
    (h : s1.currentPlatform = s2.currentPlatform) :
    firstResponse env s1 platform m = firstResponse env s2 platform m := by
  unfold firstResponse
  rw [stamp_congr env s1 s2 m h]
  congr
  funext a
  cases a <;> simp [runAdapter, sendViaLocalStorage, currentPlatformText, h]

theorem requeuedEntries_congr (ahead : List QueuedMessage) (env : Nat → SendEnv) (s1 s2 : Node)
    (h : s1.currentPlatform = s2.currentPlatform) :
    requeuedEntries env s1 ahead = requeuedEntries env s2 ahead := by
  induction ahead generalizing env with
  | nil => rfl
  | cons e rest ih =>
    simp only [requeuedEntries]
    rw [firstResponse_congr (env 0) s1 s2 e.platform e.message h,
      stamp_congr (env 0) s1 s2 e.message h, ih]

theorem requeuedEntries_of_delivered (ahead : List QueuedMessage) (env : Nat → SendEnv)
    (s : Node)
    (hd : ∀ i n, ∀ e ∈ ahead, (firstResponse (env i) n e.platform e.message).isSome = true) :
    requeuedEntries env s ahead = [] := by
  induction ahead generalizing env with
  | nil => rfl
  | cons e rest ih =>
    obtain ⟨resp, hresp⟩ := Option.isSome_iff_exists.1 (hd 0 s e (List.mem_cons_self _ _))
    simp only [requeuedEntries, hresp, List.nil_append]
    exact ih (fun i => env (i + 1)) (fun i n x hx => hd (i + 1) n x (List.mem_cons_of_mem _ hx))

/-- C11, as the code behaves: let the queue be `ahead ++ blocked :: behind`, where the peers
of the messages of `ahead` are connected and the peer of `blocked` is not. Then
`processMessageQueue` sends the messages of `ahead` in order and stops at `blocked`. The
queue afterwards is the messages of `behind`, in their original order, then one re-queued
entry for each message of `ahead` whose send got no response (put there by `sendMessage`,
in order), then `blocked` at the tail. So the messages behind the blocked one keep their
order, and the blocked one is moved behind them; when every send ahead gets a response the
queue is exactly `behind ++ [blocked]`. -/
theorem drain_stops_and_requeues_at_tail (ahead : List QueuedMessage) (blocked : QueuedMessage)
    (behind : List QueuedMessage) (fuel : Nat) (env : Nat → SendEnv) (s : Node)
    (hq : s.messageQueue = ahead ++ blocked :: behind)
    (hc : ∀ e ∈ ahead, (s.connections.get e.platform).connected = true)
    (hb : (s.connections.get blocked.platform).connected = false)
    (hf : ahead.length < fuel) :
    (processMessageQueue fuel env s).finished = true ∧
    (processMessageQueue fuel env s).node.messageQueue
      = behind ++ requeuedEntries env s ahead ++ [blocked] ∧
    (processMessageQueue fuel env s).sends.map (fun r => (r.platform, unstamped r.message))
      = ahead.map (fun e => (e.platform, unstamped e.message)) ∧
    ((∀ i n, ∀ e ∈ ahead, (firstResponse (env i) n e.platform e.message).isSome = true) →
      (processMessageQueue fuel env s).node.messageQueue = behind ++ [blocked]) := by
  have main : (processMessageQueue fuel env s).finished = true ∧
      (processMessageQueue fuel env s).node.messageQueue
        = behind ++ requeuedEntries env s ahead ++ [blocked] ∧
      (processMessageQueue fuel env s).sends.map (fun r => (r.platform, unstamped r.message))
        = ahead.map (fun e => (e.platform, unstamped e.message)) := by
    induction ahead generalizing fuel env s behind with
    | nil =>
      cases fuel with
      | zero => simp at hf
      | succ f =>
        rw [processMessageQueue_blocked_step f env s blocked behind (by simpa using hq) hb]
        simp [requeuedEntries]
    | cons e rest ih =>
      cases fuel with
      | zero => simp at hf
      | succ f =>
        have hce : (s.connections.get e.platform).connected = true :=
          hc e (List.mem_cons_self _ _)
        have hce2 : (({ s with messageQueue := rest ++ blocked :: behind } : Node).connections.get
            e.platform).connected = true := hce
        obtain ⟨-, -, hn, hm⟩ := sendMessage_connected (env 0) e.platform e.message
          { s with messageQueue := rest ++ blocked :: behind } hce2
        have hfr : firstResponse (env 0) { s with messageQueue := rest ++ blocked :: behind }
            e.platform e.message = firstResponse (env 0) s e.platform e.message :=
          firstResponse_congr _ _ _ _ _ rfl
        have hst : stamp (env 0) { s with messageQueue := rest ++ blocked :: behind } e.message
            = stamp (env 0) s e.message := stamp_congr _ _ _ _ rfl
        rw [hfr, hst] at hn
        rw [hst] at hm
        rw [processMessageQueue_connected_step f env s e (rest ++ blocked :: behind)
          (by simpa using hq) hce]
        cases hres : firstResponse (env 0) s e.platform e.message with
        | some resp =>
          rw [hres] at hn
          simp only at hn
          rw [hn]
          obtain ⟨i1, i2, i3⟩ := ih behind f (fun i => env (i + 1))
            { s with messageQueue := rest ++ blocked :: behind } rfl
            (fun x hx => hc x (List.mem_cons_of_mem _ hx)) hb (by simpa using hf)
          rw [requeuedEntries_congr rest _ { s with messageQueue := rest ++ blocked :: behind }
            s rfl] at i2
          refine ⟨i1, ?_, ?_⟩
          · simp only [i2, requeuedEntries, hres, List.nil_append]
          · simp only [List.map_cons, i3, sendMessage_platform, hm]
            rfl
        | none =>
          rw [hres] at hn
          simp only at hn
          rw [hn]
          obtain ⟨i1, i2, i3⟩ := ih
            (behind ++ [{ platform := e.platform, message := stamp (env 0) s e.message,
                          timestamp := (env 0).queuedAt, attempts := 0 }])
            f (fun i => env (i + 1))
            (queueMessage (env 0).queuedAt e.platform (stamp (env 0) s e.message)
              { s with messageQueue := rest ++ blocked :: behind })
            (by simp [queueMessage])
            (fun x hx => hc x (List.mem_cons_of_mem _ hx)) hb (by simpa using hf)
          rw [requeuedEntries_congr rest _
            (queueMessage (env 0).queuedAt e.platform (stamp (env 0) s e.message)
              { s with messageQueue := rest ++ blocked :: behind }) s rfl] at i2
          refine ⟨i1, ?_, ?_⟩
          · simp only [i2, requeuedEntries, hres, List.append_assoc]
          · simp only [List.map_cons, i3, sendMessage_platform, hm]
            rfl
  refine ⟨main.1, main.2.1, main.2.2, fun hd => ?_⟩
  rw [main.2.1, requeuedEntries_of_delivered ahead env s hd]
  simp

/-- Witness of C11: the send to the connected investment platform fails, so its message is
re-queued behind the last message; the first message for the customer platform, which is not
connected, ends at the tail. -/
theorem drain_stops_and_requeues_at_tail_witness :
    relayNode.messageQueue
      = [investmentEntry transaction42] ++ customerEntry sampleMessage
          :: [customerEntry otherMessage] ∧
    (∀ e ∈ [investmentEntry transaction42],
      (relayNode.connections.get e.platform).connected = true) ∧
    (relayNode.connections.get (customerEntry sampleMessage).platform).connected = false ∧
    (processMessageQueue 2 (fun _ => silentEnv) relayNode).node.messageQueue
      = [customerEntry otherMessage]
          ++ requeuedEntries (fun _ => silentEnv) relayNode [investmentEntry transaction42]
          ++ [customerEntry sampleMessage] ∧
    requeuedEntries (fun _ => silentEnv) relayNode [investmentEntry transaction42]
      = [{ platform := .investment, message := stamp silentEnv relayNode transaction42,
           timestamp := "t0", attempts := 0 }] :=
  ⟨rfl, by decide, by decide,
    (drain_stops_and_requeues_at_tail [investmentEntry transaction42]
      (customerEntry sampleMessage) [customerEntry otherMessage] 2 (fun _ => silentEnv)
      relayNode rfl (by decide) (by decide) (by decide)).2.1,
    by decide⟩

/-- C11 fails as stated: two messages are queued for the customer platform, which is not
connected. A run of `processMessageQueue` sends nothing, yet the queue afterwards is not the
queue before: the two undelivered messages have changed places. -/
theorem drain_changes_order_of_undelivered :
    (processMessageQueue 5 (fun _ => silentEnv) blockedNode).sends.length = 0 ∧
    (processMessageQueue 5 (fun _ => silentEnv) blockedNode).node.messageQueue
      = [customerEntry otherMessage, customerEntry sampleMessage] ∧
    ¬ (processMessageQueue 5 (fun _ => silentEnv) blockedNode).node.messageQueue
      = blockedNode.messageQueue := by
  refine ⟨by decide, by decide, by decide⟩

/-- C12, as the code behaves: there is one shared queue. When its head is a message for a peer
`P` that is not connected and the next message is for a connected peer `Q`, a run of
`processMessageQueue` sends nothing, not even the message for `Q`; it moves the message for
`P` to the tail, so the message for `Q` is at the head afterwards, and the next run starts
by sending it and gets its response when its delivery succeeds. -/
theorem head_of_line_blocks_whole_queue (s : Node) (forP forQ : QueuedMessage)
    (rest : List QueuedMessage) (env env2 : Nat → SendEnv) (fuel fuel2 : Nat)
    (hq : s.messageQueue = forP :: forQ :: rest)
    (hP : (s.connections.get forP.platform).connected = false)
    (hQ : (s.connections.get forQ.platform).connected = true)
    (hd : ∀ n, (firstResponse (env2 0) n forQ.platform forQ.message).isSome = true) :
    (processMessageQueue (fuel + 1) env s).finished = true ∧
    (processMessageQueue (fuel + 1) env s).sends = [] ∧
    (processMessageQueue (fuel + 1) env s).node
      = { s with messageQueue := forQ :: rest ++ [forP] } ∧
    (∃ r later, (processMessageQueue (fuel2 + 1) env2
          (processMessageQueue (fuel + 1) env s).node).sends = r :: later ∧
      r.platform = forQ.platform ∧ unstamped r.message = unstamped forQ.message ∧
      ∃ resp, r.value = .ok (some resp)) := by
  rw [processMessageQueue_blocked_step fuel env s forP (forQ :: rest) hq hP]
  refine ⟨rfl, rfl, by simp, ?_⟩
  have hQ2 : (({ s with messageQueue := forQ :: rest ++ [forP] } : Node).connections.get
      forQ.platform).connected = true := hQ
  rw [processMessageQueue_connected_step fuel2 env2 _ forQ (rest ++ [forP]) (by simp) hQ2]
  refine ⟨_, _, rfl, sendMessage_platform _ _ _ _, ?_, ?_⟩
  · obtain ⟨-, -, -, hm⟩ := sendMessage_connected (env2 0) forQ.platform forQ.message
      { s with messageQueue := rest ++ [forP] } hQ
    simp only at hm ⊢
    rw [hm]
    rfl
  · obtain ⟨hv, -, -, -⟩ := sendMessage_connected (env2 0) forQ.platform forQ.message
      { s with messageQueue := rest ++ [forP] } hQ
    obtain ⟨resp, hresp⟩ := Option.isSome_iff_exists.1 (hd { s with messageQueue := rest ++ [forP] })
    simp only at hv ⊢
    exact ⟨resp, by rw [hv, hresp]⟩

/-- Witness of C12 on the mixed node. -/
theorem head_of_line_blocks_whole_queue_witness :
    mixedNode.messageQueue = customerEntry sampleMessage :: investmentEntry otherMessage :: [] ∧
    (mixedNode.connections.get (customerEntry sampleMessage).platform).connected = false ∧
    (mixedNode.connections.get (investmentEntry otherMessage).platform).connected = true ∧
    (processMessageQueue (0 + 1) (fun _ => echoEnv) mixedNode).sends = [] :=
  ⟨rfl, by decide, by decide,
    (head_of_line_blocks_whole_queue mixedNode (customerEntry sampleMessage)
      (investmentEntry otherMessage) [] (fun _ => echoEnv) (fun _ => echoEnv) 0 0 rfl
      (by decide) (by decide) (fun n => echoEnv_delivers n _ _)).2.1⟩

/-- C12 fails as stated: a message for the customer platform (not connected) is queued ahead
of a message for the investment platform (connected, and its delivery would succeed). One
run of `processMessageQueue` makes no send at all, so the message for the investment
platform is not delivered; it is still in the queue afterwards. -/
theorem message_behind_blocked_head_not_delivered :
    (firstResponse echoEnv mixedNode .investment otherMessage).isSome = true ∧
    (processMessageQueue 5 (fun _ => echoEnv) mixedNode).finished = true ∧
    (processMessageQueue 5 (fun _ => echoEnv) mixedNode).sends.length = 0 ∧
    (processMessageQueue 5 (fun _ => echoEnv) mixedNode).node.messageQueue
      = [investmentEntry otherMessage, customerEntry sampleMessage] := by
  refine ⟨echoEnv_delivers _ _ _, by decide, by decide, by decide⟩

/-! ## Connection health -/

theorem Connections.get_set_at (c : Connections) (p : Platform) (x : Connection) :
    (c.set p x).get p = x := by
  cases p <;> rfl

theorem Connections.get_set_elsewhere (c : Connections) (p q : Platform) (x : Connection)
    (h : q ≠ p) : (c.set p x).get q = c.get q := by
  cases p <;> cases q <;> first | rfl | exact absurd rfl h

/-- A call of `sendPing` never throws. -/
theorem sendPing_never_throws (env : ConnectEnv) (endpoint : Option String) :
    ∃ b, sendPing env endpoint = .ok b := by
  unfold sendPing
  cases env.apiPing endpoint with
  | some ok => exact ⟨ok, rfl⟩
  | none => cases env.direct endpoint <;> simp

/-- A sync with a connected peer: with a response the response object is given to
`updateLocalData` and `lastSync` is set; without one the `SYNC` message is queued. -/
theorem syncWithPlatform_connected (env : SyncEnv) (platform : Platform) (s : Node)
    (hc : (s.connections.get platform).connected = true) :
    (syncWithPlatform env platform s).node
      = (match firstResponse env.send s platform (syncRequest env s) with
         | some syncData =>
           { s with
             storage := updateLocalData syncData s.storage,
             connections := s.connections.set platform
               { (s.connections.get platform) with lastSync := some env.syncedAt } }
         | none => queueMessage env.send.queuedAt platform
             (stamp env.send s (syncRequest env s)) s) ∧
    (syncWithPlatform env platform s).send
      = sendMessage env.send platform (syncRequest env s) s := by
  obtain ⟨hv, -, hn, -⟩ := sendMessage_connected env.send platform (syncRequest env s) s hc
  simp only [syncRequest] at hv hn
  simp only [syncWithPlatform, syncRequest]
  rw [hv]
  cases hf : firstResponse env.send s platform
      { type := some "SYNC", platform := s.currentPlatform,
        data := .snapshot (getLocalData s.storage), timestamp := some env.stampedAt } with
  | none =>
    rw [hf] at hn
    simp [hn]
  | some d =>
    rw [hf] at hn
    simp [hn]

/-- A call of `connectToPlatform` whose probe succeeds. -/
theorem connectToPlatform_probe_ok (fuel : Nat) (env : Nat → ConnectEnv) (platform : Platform)
    (s : Node) (h : sendPing (env 0) (s.connections.get platform).endpoint = .ok true) :
    connectToPlatform (fuel + 1) env platform s
      = { node := (syncWithPlatform (env 0).sync platform
            (markConnected (env 0).connectedAt platform s)).node,
          events := [.probe platform, .notifyConnection platform, .sync platform],
          syncs := [syncWithPlatform (env 0).sync platform
            (markConnected (env 0).connectedAt platform s)],
          finished := true } := by
  simp [connectToPlatform, h, markConnected]

/-- A call of `connectToPlatform` whose probe fails: nothing happens. -/
theorem connectToPlatform_probe_failed (fuel : Nat) (env : Nat → ConnectEnv)
    (platform : Platform) (s : Node)
    (h : sendPing (env 0) (s.connections.get platform).endpoint = .ok false) :
    connectToPlatform (fuel + 1) env platform s
      = { node := s, events := [.probe platform], syncs := [], finished := true } := by
  simp [connectToPlatform, h]

/-- The connection records and the steps after a call of `connectToPlatform` whose probe
succeeds. -/
theorem connectToPlatform_success_records (fuel : Nat) (env : Nat → ConnectEnv)
    (platform : Platform) (s : Node)
    (h : sendPing (env 0) (s.connections.get platform).endpoint = .ok true) :
    (connectToPlatform (fuel + 1) env platform s).finished = true ∧
    ((connectToPlatform (fuel + 1) env platform s).node.connections.get platform).connected
      = true ∧
    (((connectToPlatform (fuel + 1) env platform s).node.connections.get platform).lastSync
        = some (env 0).connectedAt ∨
      ((connectToPlatform (fuel + 1) env platform s).node.connections.get platform).lastSync
        = some (env 0).sync.syncedAt) ∧
    (connectToPlatform (fuel + 1) env platform s).events
      = [.probe platform, .notifyConnection platform, .sync platform] ∧
    (connectToPlatform (fuel + 1) env platform s).syncs.length = 1 ∧
    (∀ q, q ≠ platform →
      (connectToPlatform (fuel + 1) env platform s).node.connections.get q
        = s.connections.get q) := by
  rw [connectToPlatform_probe_ok fuel env platform s h]
  have hc1 : ((markConnected (env 0).connectedAt platform s).connections.get platform).connected
      = true := by
    simp [markConnected, Connections.get_set_at]
  obtain ⟨hnode, -⟩ := syncWithPlatform_connected (env 0).sync platform
    (markConnected (env 0).connectedAt platform s) hc1
  simp only
  rw [hnode]
  cases firstResponse (env 0).sync.send (markConnected (env 0).connectedAt platform s) platform
      (syncRequest (env 0).sync (markConnected (env 0).connectedAt platform s)) with
  | none =>
    refine ⟨by simp, ?_, ?_, by simp, by simp, ?_⟩
    · simp [queueMessage, markConnected, Connections.get_set_at]
    · left; simp [queueMessage, markConnected, Connections.get_set_at]
    · intro q hq
      simp [queueMessage, markConnected, Connections.get_set_elsewhere _ _ _ _ hq]
  | some d =>
    refine ⟨by simp, ?_, ?_, by simp, by simp, ?_⟩
    · simp [markConnected, Connections.get_set_at]
    · right; simp [markConnected, Connections.get_set_at]
    · intro q hq
      simp [markConnected, Connections.get_set_elsewhere _ _ _ _ hq]

/-- C17: when the probe of `connectToPlatform(peer)` succeeds, the call returns with the
peer marked connected and its `lastSync` set to a clock reading of that call (the one taken
after the probe, or the later one taken by the sync when the sync got a response); its
steps are the probe, the connection event and exactly one call of `syncWithPlatform` for
that peer; the connection records of the other peers are unchanged. The one sync is the call
`syncWithPlatform(peer)` made on the node with the peer just marked connected: it sends the
stamped `SYNC` message to that peer, and the node after `connectToPlatform` is the node
after that sync (the response given to `updateLocalData` and `lastSync` set again when the
sync got a response, the `SYNC` message queued when it got none). -/
theorem connect_success_marks_and_syncs (fuel : Nat) (env : Nat → ConnectEnv)
    (platform : Platform) (s : Node)
    (h : sendPing (env 0) (s.connections.get platform).endpoint = .ok true) :
    (connectToPlatform (fuel + 1) env platform s).finished = true ∧
    ((connectToPlatform (fuel + 1) env platform s).node.connections.get platform).connected
      = true ∧
    (((connectToPlatform (fuel + 1) env platform s).node.connections.get platform).lastSync
        = some (env 0).connectedAt ∨
      ((connectToPlatform (fuel + 1) env platform s).node.connections.get platform).lastSync
        = some (env 0).sync.syncedAt) ∧
    (connectToPlatform (fuel + 1) env platform s).events
      = [.probe platform, .notifyConnection platform, .sync platform] ∧
    (connectToPlatform (fuel + 1) env platform s).syncs.length = 1 ∧
    (∀ q, q ≠ platform →
      (connectToPlatform (fuel + 1) env platform s).node.connections.get q
        = s.connections.get q) ∧
    (connectToPlatform (fuel + 1) env platform s).syncs
      = [syncWithPlatform (env 0).sync platform
          (markConnected (env 0).connectedAt platform s)] ∧
    (connectToPlatform (fuel + 1) env platform s).syncs.map
        (fun r => (r.send.platform, r.send.message))
      = [(platform, stamp (env 0).sync.send (markConnected (env 0).connectedAt platform s)
          (syncRequest (env 0).sync (markConnected (env 0).connectedAt platform s)))] ∧
    (connectToPlatform (fuel + 1) env platform s).node
      = (syncWithPlatform (env 0).sync platform
          (markConnected (env 0).connectedAt platform s)).node ∧
    (connectToPlatform (fuel + 1) env platform s).node
      = (match firstResponse (env 0).sync.send (markConnected (env 0).connectedAt platform s)
            platform (syncRequest (env 0).sync (markConnected (env 0).connectedAt platform s)) with
         | some syncData =>
           { markConnected (env 0).connectedAt platform s with
             storage := updateLocalData syncData s.storage,
             connections := (markConnected (env 0).connectedAt platform s).connections.set
               platform
               { connected := true, lastSync := some (env 0).sync.syncedAt,
                 endpoint := (s.connections.get platform).endpoint } }
         | none => queueMessage (env 0).sync.send.queuedAt platform
             (stamp (env 0).sync.send (markConnected (env 0).connectedAt platform s)
               (syncRequest (env 0).sync (markConnected (env 0).connectedAt platform s)))
             (markConnected (env 0).connectedAt platform s)) := by
  obtain ⟨o1, o2, o3, o4, o5, o6⟩ := connectToPlatform_success_records fuel env platform s h
  have hok := connectToPlatform_probe_ok fuel env platform s h
  have hc1 : ((markConnected (env 0).connectedAt platform s).connections.get platform).connected
      = true := by
    simp [markConnected, Connections.get_set_at]
  obtain ⟨hnode, hsend⟩ := syncWithPlatform_connected (env 0).sync platform
    (markConnected (env 0).connectedAt platform s) hc1
  have hmsg := (sendMessage_connected (env 0).sync.send platform
    (syncRequest (env 0).sync (markConnected (env 0).connectedAt platform s))
    (markConnected (env 0).connectedAt platform s) hc1).2.2.2
  refine ⟨o1, o2, o3, o4, o5, o6, ?_, ?_, ?_, ?_⟩
  · rw [hok]
  · rw [hok]
    simp only [List.map_cons, List.map_nil, hsend, hmsg, sendMessage_platform]
  · rw [hok]
  · rw [hok]
    simp only
    rw [hnode]
    cases firstResponse (env 0).sync.send (markConnected (env 0).connectedAt platform s)
        platform (syncRequest (env 0).sync (markConnected (env 0).connectedAt platform s)) with
    | none => rfl
    | some d =>
      simp [markConnected, Connections.get_set_at]

/-- Witness of C17: the fresh node connects to the customer platform. -/
theorem connect_success_marks_and_syncs_witness :
    sendPing liveConnectEnv (freshNode.connections.get .customer).endpoint = .ok true ∧
    ((connectToPlatform (0 + 1) (fun _ => liveConnectEnv) .customer
        freshNode).node.connections.get .customer).connected = true ∧
    (connectToPlatform (0 + 1) (fun _ => liveConnectEnv) .customer freshNode).node
      = (syncWithPlatform liveConnectEnv.sync .customer
          (markConnected liveConnectEnv.connectedAt .customer freshNode)).node :=
  ⟨rfl, (connect_success_marks_and_syncs 0 (fun _ => liveConnectEnv) .customer freshNode
    rfl).2.1,
    (connect_success_marks_and_syncs 0 (fun _ => liveConnectEnv) .customer freshNode
    rfl).2.2.2.2.2.2.2.2.1⟩

/-- C14, evaluation of the code: the customer platform is marked connected and the probe
fails (`sendPing` returns `false`). The call returns after the probe alone: the node is
unchanged, so the platform is still marked connected, and `retryConnection` is not called. -/
theorem failed_probe_changes_nothing :
    sendPing deadConnectEnv (linkedNode.connections.get .customer).endpoint = .ok false ∧
    (connectToPlatform 5 (fun _ => deadConnectEnv) .customer linkedNode).finished = true ∧
    (connectToPlatform 5 (fun _ => deadConnectEnv) .customer linkedNode).node = linkedNode ∧
    ((connectToPlatform 5 (fun _ => deadConnectEnv) .customer
        linkedNode).node.connections.get .customer).connected = true ∧
    (connectToPlatform 5 (fun _ => deadConnectEnv) .customer linkedNode).events
      = [.probe .customer] := by
  refine ⟨rfl, by decide, by decide, by decide, by decide⟩

/-- The steps of `connectToPlatform` never include a call of `retryConnection`: `sendPing`
does not throw, so the `catch` block is not entered. -/
theorem connectToPlatform_never_retries (fuel : Nat) (env : Nat → ConnectEnv)
    (platform : Platform) (s : Node) (q : Platform) (a : Nat) :
    ConnEvent.retry q a ∉ (connectToPlatform fuel env platform s).events := by
  cases fuel with
  | zero => simp [connectToPlatform]
  | succ f =>
    obtain ⟨b, hb⟩ := sendPing_never_throws (env 0) (s.connections.get platform).endpoint
    cases b with
    | false => rw [connectToPlatform_probe_failed f env platform s hb]; simp
    | true => rw [connectToPlatform_probe_ok f env platform s hb]; simp

/-- C15, evaluation of the code: with `retryAttempts = 3`, a connection attempt of the fresh
node whose probe fails returns after that one probe, whatever the bound on the recursion: no
retry is made, with attempt number 1 or any other. -/
theorem failed_probe_is_not_retried :
    freshNode.config.retryAttempts = 3 ∧
    (∀ fuel, (connectToPlatform (fuel + 1) (fun _ => deadConnectEnv) .customer freshNode).events
        = [.probe .customer] ∧
      (connectToPlatform (fuel + 1) (fun _ => deadConnectEnv) .customer freshNode).finished
        = true ∧
      ConnEvent.retry .customer 1 ∉
        (connectToPlatform (fuel + 1) (fun _ => deadConnectEnv) .customer freshNode).events) := by
  refine ⟨rfl, fun fuel => ?_⟩
  rw [connectToPlatform_probe_failed fuel (fun _ => deadConnectEnv) .customer freshNode rfl]
  simp

/-- C16: for an attempt number `a` with `1 ≤ a ≤ retryAttempts`, `retryConnection` waits
exactly `retryDelay * 2 ^ (a - 1)` milliseconds and then probes again through
`connectToPlatform`; with the default configuration the waits are 1000, 2000 and 4000; for a
positive `retryDelay` the wait is strictly increasing in `a`; for `a > retryAttempts` the
call returns at once, with no wait, no probe and the node unchanged. -/
theorem retry_backoff (fuel : Nat) (env : Nat → ConnectEnv) (platform : Platform) (a : Nat)
    (s : Node) :
    (1 ≤ a → a ≤ s.config.retryAttempts →
      (retryConnection (fuel + 2) env platform a s).events
        = .retry platform a :: .wait (s.config.retryDelay * 2 ^ (a - 1))
            :: (connectToPlatform (fuel + 1) env platform s).events ∧
      (connectToPlatform (fuel + 1) env platform s).events.head? = some (.probe platform)) ∧
    (s.config.retryAttempts < a →
      retryConnection (fuel + 1) env platform a s
        = { node := s, events := [.retry platform a], syncs := [], finished := true }) ∧
    (∀ b, 1 ≤ a → a < b → 0 < s.config.retryDelay →
      s.config.retryDelay * 2 ^ (a - 1) < s.config.retryDelay * 2 ^ (b - 1)) ∧
    [1, 2, 3].map (fun n => ({} : Config).retryDelay * 2 ^ (n - 1)) = [1000, 2000, 4000] := by
  refine ⟨?_, ?_, ?_, by decide⟩
  · intro _ h2
    have h3 : ¬ a > s.config.retryAttempts := Nat.not_lt.2 h2
    refine ⟨by simp [retryConnection, h3], ?_⟩
    obtain ⟨b, hb⟩ := sendPing_never_throws (env 0) (s.connections.get platform).endpoint
    cases b with
    | false => rw [connectToPlatform_probe_failed fuel env platform s hb]; rfl
    | true => rw [connectToPlatform_probe_ok fuel env platform s hb]; rfl
  · intro h
    simp [retryConnection, h]
  · intro b h1 h2 h3
    have h4 : a - 1 < b - 1 := by omega
    exact Nat.mul_lt_mul_of_pos_left (Nat.pow_lt_pow_right (by decide) h4) h3

/-- Witness of C16: the second retry of the fresh node waits 2000 milliseconds. -/
theorem retry_backoff_witness :
    1 ≤ 2 ∧ 2 ≤ freshNode.config.retryAttempts ∧
    (retryConnection (0 + 2) (fun _ => deadConnectEnv) .customer 2 freshNode).events
      = .retry .customer 2 :: .wait (freshNode.config.retryDelay * 2 ^ (2 - 1))
          :: (connectToPlatform (0 + 1) (fun _ => deadConnectEnv) .customer freshNode).events :=
  ⟨by decide, by decide,
    ((retry_backoff 0 (fun _ => deadConnectEnv) .customer 2 freshNode).1
      (by decide) (by decide)).1⟩

/-- C13, as the code behaves: start with an empty queue and peer `platform` not connected.
A send to that peer leaves the queue with length 1. A call of `connectToPlatform` whose
probe succeeds and whose sync gets a response marks the peer connected and sends the `SYNC`
message only: the queue is the same afterwards, still of length 1. A run of
`processMessageQueue` after that, with deliveries that succeed, hands the queued message to
the peer and leaves the queue empty. -/
theorem reconnect_keeps_queue_until_drain (env1 : SendEnv) (cenv : Nat → ConnectEnv)
    (denv : Nat → SendEnv) (platform : Platform) (tx : Message) (s : Node) (fuel fuel2 : Nat)
    (hempty : s.messageQueue = [])
    (hdis : (s.connections.get platform).connected = false)
    (hprobe : sendPing (cenv 0) (s.connections.get platform).endpoint = .ok true)
    (hsync : ∀ n m, (firstResponse (cenv 0).sync.send n platform m).isSome = true)
    (hdel : ∀ i n m, (firstResponse (denv i) n platform m).isSome = true) :
    (sendMessage env1 platform tx s).node.messageQueue
      = [{ platform := platform, message := tx, timestamp := env1.queuedAt, attempts := 0 }] ∧
    ((connectToPlatform (fuel + 1) cenv platform
        (sendMessage env1 platform tx s).node).node.connections.get platform).connected = true ∧
    (connectToPlatform (fuel + 1) cenv platform (sendMessage env1 platform tx s).node).syncs.map
        (fun r => unstamped r.send.message)
      = [unstamped (syncRequest (cenv 0).sync
          (markConnected (cenv 0).connectedAt platform (sendMessage env1 platform tx s).node))] ∧
    (connectToPlatform (fuel + 1) cenv platform
        (sendMessage env1 platform tx s).node).node.messageQueue
      = (sendMessage env1 platform tx s).node.messageQueue ∧
    (processMessageQueue (fuel2 + 2) denv (connectToPlatform (fuel + 1) cenv platform
        (sendMessage env1 platform tx s).node).node).finished = true ∧
    (processMessageQueue (fuel2 + 2) denv (connectToPlatform (fuel + 1) cenv platform
        (sendMessage env1 platform tx s).node).node).node.messageQueue = [] ∧
    (processMessageQueue (fuel2 + 2) denv (connectToPlatform (fuel + 1) cenv platform
        (sendMessage env1 platform tx s).node).node).sends.map
        (fun r => (r.platform, unstamped r.message)) = [(platform, unstamped tx)] := by
  have hn := sendMessage_node_of_disconnected env1 platform tx s hdis
  have hq1 : (sendMessage env1 platform tx s).node.messageQueue
      = [{ platform := platform, message := tx, timestamp := env1.queuedAt, attempts := 0 }] := by
    rw [hn]; simp [queueMessage, hempty]
  have hep : ((sendMessage env1 platform tx s).node.connections.get platform).endpoint
      = (s.connections.get platform).endpoint := by
    rw [sendMessage_connections_eq]
  have hc1 : ((markConnected (cenv 0).connectedAt platform
      (sendMessage env1 platform tx s).node).connections.get platform).connected = true := by
    simp [markConnected, Connections.get_set_at]
  obtain ⟨hnode, hsend⟩ := syncWithPlatform_connected (cenv 0).sync platform
    (markConnected (cenv 0).connectedAt platform (sendMessage env1 platform tx s).node) hc1
  obtain ⟨d, hd⟩ := Option.isSome_iff_exists.1 (hsync
    (markConnected (cenv 0).connectedAt platform (sendMessage env1 platform tx s).node)
    (syncRequest (cenv 0).sync
      (markConnected (cenv 0).connectedAt platform (sendMessage env1 platform tx s).node)))
  rw [hd] at hnode
  simp only at hnode
  rw [connectToPlatform_probe_ok fuel cenv platform _ (by rw [hep]; exact hprobe)]
  simp only
  have hmsg := (sendMessage_connected (cenv 0).sync.send platform
    (syncRequest (cenv 0).sync
      (markConnected (cenv 0).connectedAt platform (sendMessage env1 platform tx s).node))
    (markConnected (cenv 0).connectedAt platform (sendMessage env1 platform tx s).node) hc1).2.2.2
  have hcon : ((syncWithPlatform (cenv 0).sync platform
      (markConnected (cenv 0).connectedAt platform
        (sendMessage env1 platform tx s).node)).node.connections.get platform).connected
      = true := by
    rw [hnode]; simp [markConnected, Connections.get_set_at]
  have hqueue : (syncWithPlatform (cenv 0).sync platform
      (markConnected (cenv 0).connectedAt platform
        (sendMessage env1 platform tx s).node)).node.messageQueue
      = (sendMessage env1 platform tx s).node.messageQueue := by
    rw [hnode]; rfl
  obtain ⟨p1, p2, p3, -⟩ := processMessageQueue_all_delivered
    [{ platform := platform, message := tx, timestamp := env1.queuedAt, attempts := 0 }]
    (fuel2 + 2) denv _ (hqueue.trans hq1)
    (fun e he => by rw [List.mem_singleton.1 he]; exact hcon)
    (fun i n e he => by rw [List.mem_singleton.1 he]; exact hdel i n tx)
    (by simp)
  refine ⟨hq1, hcon, ?_, hqueue, p1, p2, by simpa using p3⟩
  simp only [List.map_cons, List.map_nil, hsend, hmsg]
  rfl

/-- Witness of C13: the transaction with id 42 stays queued through the reconnection and is
handed over by the drain. -/
theorem reconnect_keeps_queue_until_drain_witness :
    freshNode.messageQueue = [] ∧
    (freshNode.connections.get .customer).connected = false ∧
    sendPing liveConnectEnv (freshNode.connections.get .customer).endpoint = .ok true ∧
    (connectToPlatform (0 + 1) (fun _ => liveConnectEnv) .customer
        (sendMessage silentEnv .customer transaction42 freshNode).node).node.messageQueue
      = (sendMessage silentEnv .customer transaction42 freshNode).node.messageQueue ∧
    (processMessageQueue (0 + 2) (fun _ => echoEnv)
        (connectToPlatform (0 + 1) (fun _ => liveConnectEnv) .customer
          (sendMessage silentEnv .customer transaction42 freshNode).node).node).node.messageQueue
      = [] :=
  have h := reconnect_keeps_queue_until_drain silentEnv (fun _ => liveConnectEnv)
    (fun _ => echoEnv) .customer transaction42 freshNode 0 0 rfl (by decide) rfl
    (fun n m => echoEnv_delivers n .customer m) (fun _ n m => echoEnv_delivers n .customer m)
  ⟨rfl, by decide, rfl, h.2.2.2.1, h.2.2.2.2.2.1⟩

/-- C13 fails as stated: the fresh node queues the transaction with id 42 for the customer
platform and then connects to it, with a probe that succeeds and a transport that answers.
When `connectToPlatform` has returned the platform is marked connected, the only message
sent was the `SYNC`, and the queue still has length 1, not 0. -/
theorem reconnect_does_not_drain :
    (sendMessage silentEnv .customer transaction42 freshNode).node.messageQueue.length = 1 ∧
    (connectToPlatform 5 (fun _ => liveConnectEnv) .customer
        (sendMessage silentEnv .customer transaction42 freshNode).node).finished = true ∧
    ((connectToPlatform 5 (fun _ => liveConnectEnv) .customer
        (sendMessage silentEnv .customer transaction42 freshNode).node).node.connections.get
          .customer).connected = true ∧
    (connectToPlatform 5 (fun _ => liveConnectEnv) .customer
        (sendMessage silentEnv .customer transaction42 freshNode).node).syncs.map
          (fun r => r.send.message.type) = [some "SYNC"] ∧
    (connectToPlatform 5 (fun _ => liveConnectEnv) .customer
        (sendMessage silentEnv .customer transaction42 freshNode).node).node.messageQueue.length
      = 1 ∧
    ¬ (connectToPlatform 5 (fun _ => liveConnectEnv) .customer
        (sendMessage silentEnv .customer transaction42 freshNode).node).node.messageQueue.length
      = 0 := by
  refine ⟨by decide, by decide, by decide, by decide, by decide, by decide⟩

/-- C18, as the code behaves: `sendMessage` does not touch the connection records. If a peer
is connected and the send to it fails on every adapter, the call returns `null`, the message
is queued, and the peer is still marked connected. -/
theorem send_failure_keeps_connected (env : SendEnv) (platform : Platform) (message : Message)
    (s : Node) (hc : (s.connections.get platform).connected = true)
    (hfail : ∀ a, (runAdapter env s platform (stamp env s message) a).response = none) :
    (sendMessage env platform message s).value = .ok none ∧
    (sendMessage env platform message s).node.connections = s.connections ∧
    ((sendMessage env platform message s).node.connections.get platform).connected = true ∧
    (sendMessage env platform message s).node.messageQueue
      = s.messageQueue ++ [{ platform := platform, message := stamp env s message,
                             timestamp := env.queuedAt, attempts := 0 }] := by
  obtain ⟨hv, -, hn, -⟩ := sendMessage_connected env platform message s hc
  have hf : firstResponse env s platform message = none := by
    simp only [firstResponse, List.findSome?_eq_none_iff]
    exact fun a _ => hfail a
  refine ⟨by rw [hv, hf], sendMessage_connections_eq env platform message s, ?_, ?_⟩
  · rw [sendMessage_connections_eq]
    exact hc
  · rw [hn, hf]
    rfl

/-- Witness of C18 on the linked node with a silent transport. -/
theorem send_failure_keeps_connected_witness :
    (linkedNode.connections.get .customer).connected = true ∧
    (∀ a, (runAdapter silentEnv linkedNode .customer
        (stamp silentEnv linkedNode sampleMessage) a).response = none) ∧
    ((sendMessage silentEnv .customer sampleMessage linkedNode).node.connections.get
        .customer).connected = true :=
  ⟨by decide, fun a => by cases a <;> rfl,
    (send_failure_keeps_connected silentEnv .customer sampleMessage linkedNode (by decide)
      (fun a => by cases a <;> rfl)).2.2.1⟩

/-- C18 fails as stated: the customer platform is connected and every adapter fails; when
`sendMessage` has returned `null` the platform is not marked disconnected. -/
theorem send_failure_does_not_disconnect :
    (linkedNode.connections.get .customer).connected = true ∧
    (sendMessage silentEnv .customer sampleMessage linkedNode).tried = adapterOrder ∧
    (sendMessage silentEnv .customer sampleMessage linkedNode).node.messageQueue.length = 1 ∧
    ¬ ((sendMessage silentEnv .customer sampleMessage linkedNode).node.connections.get
        .customer).connected = false := by
  refine ⟨by decide, by decide, by decide, by decide⟩

/-- C19, evaluation of the code: the request of the linked node is stamped with the id
`mainBank_0_r`, and the only inbound message is a response with the id `stale`. Arriving on
the broadcast channel it is ignored and the adapter fails; arriving as a storage event under
the response key it resolves the LocalStorage adapter, and `sendMessage` returns it: the
response returned does not carry the id of its request. -/
theorem storage_listener_ignores_message_id :
    (sendMessage staleStorageEnv .customer sampleMessage linkedNode).message.messageId
      = some "mainBank_0_r" ∧
    sendViaBroadcastChannel staleChannelEnv .customer
        (stamp staleChannelEnv linkedNode sampleMessage) = .rejected ∧
    sendViaLocalStorage staleStorageEnv linkedNode .customer
        (stamp staleStorageEnv linkedNode sampleMessage) = .resolved (some staleResponse) ∧
    (sendMessage staleStorageEnv .customer sampleMessage linkedNode).value
      = .ok (some staleResponse) ∧
    staleResponse.messageId
      ≠ (sendMessage staleStorageEnv .customer sampleMessage linkedNode).message.messageId := by
  refine ⟨by decide, by decide, by decide, by rfl, by decide⟩

/-- C20, as the code behaves: every send stamps the message anew. When the head of the queue
is for a connected peer, the first call of `sendMessage` made by `processMessageQueue` hands
the adapters the queued message with its `messageId` replaced by the id generated at that
moment; the other fields are those of the queued message. -/
theorem resend_stamps_new_id (s : Node) (e : QueuedMessage) (rest : List QueuedMessage)
    (env : Nat → SendEnv) (fuel : Nat) (hq : s.messageQueue = e :: rest)
    (hc : (s.connections.get e.platform).connected = true) :
    ∃ r later, (processMessageQueue (fuel + 1) env s).sends = r :: later ∧
      r.platform = e.platform ∧
      r.message = { e.message with messageId := some (generateMessageId (env 0) s) } ∧
      unstamped r.message = unstamped e.message := by
  rw [processMessageQueue_connected_step fuel env s e rest hq hc]
  have hm := (sendMessage_connected (env 0) e.platform e.message
    { s with messageQueue := rest } hc).2.2.2
  refine ⟨_, _, rfl, sendMessage_platform _ _ _ _, ?_, ?_⟩
  · rw [hm]; rfl
  · rw [hm]; rfl

/-- Witness of C20 on the node with one message queued for the connected customer platform. -/
theorem resend_stamps_new_id_witness :
    stuckNode.messageQueue = customerEntry sampleMessage :: [] ∧
    (stuckNode.connections.get (customerEntry sampleMessage).platform).connected = true ∧
    (∃ r later, (processMessageQueue (0 + 1) (fun _ => echoEnv) stuckNode).sends = r :: later ∧
      r.platform = (customerEntry sampleMessage).platform ∧
      r.message = { (customerEntry sampleMessage).message with
                    messageId := some (generateMessageId echoEnv stuckNode) } ∧
      unstamped r.message = unstamped (customerEntry sampleMessage).message) :=
  ⟨rfl, by decide,
    resend_stamps_new_id stuckNode (customerEntry sampleMessage) [] (fun _ => echoEnv) 0 rfl
      (by decide)⟩

/-- C20 fails as stated: a first send to the connected customer platform fails on every
adapter, so the message is queued carrying the id `mainBank_0_r` of that attempt. When
`processMessageQueue` re-sends it one millisecond later, the adapters receive it with the id
`mainBank_1_r`. -/
theorem resend_changes_message_id :
    (sendMessage silentEnv .customer sampleMessage linkedNode).node.messageQueue.map
        (fun e => e.message.messageId) = [some "mainBank_0_r"] ∧
    (processMessageQueue 5 (fun _ => laterEchoEnv)
        (sendMessage silentEnv .customer sampleMessage linkedNode).node).sends.map
        (fun r => r.message.messageId) = [some "mainBank_1_r"] ∧
    ¬ (processMessageQueue 5 (fun _ => laterEchoEnv)
        (sendMessage silentEnv .customer sampleMessage linkedNode).node).sends.map
        (fun r => r.message.messageId)
      = (sendMessage silentEnv .customer sampleMessage linkedNode).node.messageQueue.map
        (fun e => e.message.messageId) := by
  refine ⟨by decide, by decide, by decide⟩

/-! ## Inbound messages -/

/-- C21: an inbound request with `messageId` `i` from platform `p` is answered under the
response key of `p`: a `SYNC` request with a reply of type `SYNC_RESPONSE` whose `messageId`
is `i` and whose `data` is the current local snapshot, a `PING` request with a reply of type
`PONG` whose `messageId` is `i`. Nothing else is stored, and the key is the one on which the
LocalStorage adapter of a node running as `p` listens. -/
theorem requests_are_answered (now : String) (message : Message) (s : Node) (p : Platform)
    (hp : message.platform = some p) :
    (message.type = some "SYNC" →
      (handleIncomingMessage now (some message) s).written
        = [{ key := responseKeyOf p,
             value := { type := some "SYNC_RESPONSE", platform := s.currentPlatform,
                        messageId := message.messageId,
                        data := .snapshot (getLocalData s.storage),
                        timestamp := some now } }]) ∧
    (message.type = some "PING" →
      (handleIncomingMessage now (some message) s).written
        = [{ key := responseKeyOf p,
             value := { type := some "PONG", platform := s.currentPlatform,
                        messageId := message.messageId, timestamp := some now } }]) ∧
    (handleSyncRequest now message s).2.key = responseKeyOf p ∧
    (handlePingRequest now message s).2.key = responseKeyOf p ∧
    (∀ requester : Node, requester.currentPlatform = some p →
      responseKeyOf p = "pilgrim_network_" ++ currentPlatformText requester ++ "_resp") := by
  refine ⟨?_, ?_, ?_, ?_, ?_⟩
  · intro h
    simp [handleIncomingMessage, h, handleSyncRequest, sendResponse, hp, responseKeyOf]
  · intro h
    simp [handleIncomingMessage, h, handlePingRequest, sendResponse, hp, responseKeyOf]
  · simp [handleSyncRequest, sendResponse, hp, responseKeyOf]
  · simp [handlePingRequest, sendResponse, hp, responseKeyOf]
  · intro requester h
    simp [responseKeyOf, currentPlatformText, h]

/-- Witness of C21: the main bank answers a `SYNC` request of the customer platform. -/
theorem requests_are_answered_witness :
    sampleSyncRequest.platform = some .customer ∧
    sampleSyncRequest.type = some "SYNC" ∧
    (handleIncomingMessage "t1" (some sampleSyncRequest) bankNode).written
      = [{ key := responseKeyOf .customer,
           value := { type := some "SYNC_RESPONSE", platform := bankNode.currentPlatform,
                      messageId := sampleSyncRequest.messageId,
                      data := .snapshot (getLocalData bankNode.storage),
                      timestamp := some "t1" } }] :=
  ⟨rfl, rfl, (requests_are_answered "t1" sampleSyncRequest bankNode .customer rfl).1 rfl⟩

/-- C24: an inbound message whose type is none of `SYNC`, `PING`, `TRANSACTION`,
`BALANCE_UPDATE`, `USER_UPDATE` (also a message without type, or no message at all) is
handled as a no-op: the handler does not throw, the node (stores, connection records and
queue) is unchanged, no reply is stored and no local event is dispatched. -/
theorem unknown_kind_is_noop (now : String) (event : Option Message) (s : Node)
    (h : ∀ m t, event = some m → m.type = some t → t ∉ requestKinds) :
    (handleIncomingMessage now event s).value = .ok () ∧
    (handleIncomingMessage now event s).node = s ∧
    (handleIncomingMessage now event s).written = [] ∧
    (handleIncomingMessage now event s).events = [] := by
  cases event with
  | none => simp [handleIncomingMessage, HandlerResult.unchanged]
  | some m =>
    cases ht : m.type with
    | none => simp [handleIncomingMessage, ht, HandlerResult.unchanged]
    | some t =>
      have hn := h m t rfl ht
      simp only [requestKinds, List.mem_cons, List.mem_singleton, List.not_mem_nil, or_false,
        not_or] at hn
      obtain ⟨h1, h2, h3, h4, h5⟩ := hn
      simp only [handleIncomingMessage, ht, h1, h2, h3, h4, h5, if_false]
      by_cases he : t = "" <;> simp [he, HandlerResult.unchanged]

/-- Witness of C24: a `SYNC_RESPONSE` that arrives on the window changes nothing. -/
theorem unknown_kind_is_noop_witness :
    (∀ m t, some sampleSyncResponse = some m → m.type = some t → t ∉ requestKinds) ∧
    (handleIncomingMessage "t1" (some sampleSyncResponse) bankNode).node = bankNode :=
  have h : ∀ m t, some sampleSyncResponse = some m → m.type = some t → t ∉ requestKinds := by
    intro m t hm ht
    cases hm
    cases ht
    decide
  ⟨h, (unknown_kind_is_noop "t1" (some sampleSyncResponse) bankNode h).2.1⟩

/-- C28: handling an inbound `SYNC` request does not change the responder: for every node
and every message, whatever its `data`, the node after `handleSyncRequest` is the node
before, so the bank, customer and investment databases are the same; this also holds when
the request comes in through `handleIncomingMessage`. -/
theorem sync_request_leaves_stores (now : String) (message : Message) (s : Node) :
    (handleSyncRequest now message s).1 = s ∧
    (handleSyncRequest now message s).1.storage = s.storage ∧
    (∀ data, (handleSyncRequest now { message with data := data } s).1.storage = s.storage) ∧
    (handleIncomingMessage now (some { message with type := some "SYNC" }) s).node.storage
      = s.storage := by
  refine ⟨rfl, rfl, fun _ => rfl, ?_⟩
  simp [handleIncomingMessage, handleSyncRequest]

/-! ## Single-record updates -/

theorem findIndex_append_match {α : Type} (p : α → Bool) (pre : List α) (a : α) (post : List α)
    (hpre : ∀ x ∈ pre, p x = false) (ha : p a = true) :
    findIndex p (pre ++ a :: post) = some pre.length := by
  induction pre with
  | nil => simp [findIndex, ha]
  | cons b t ih =>
    have hb : p b = false := hpre b (List.mem_cons_self _ _)
    have ih2 := ih (fun x hx => hpre x (List.mem_cons_of_mem _ hx))
    simp [findIndex, hb, ih2]

theorem findIndex_none {α : Type} (p : α → Bool) (l : List α) (h : ∀ x ∈ l, p x = false) :
    findIndex p l = none := by
  induction l with
  | nil => rfl
  | cons b t ih =>
    have hb : p b = false := h b (List.mem_cons_self _ _)
    have ih2 := ih (fun x hx => h x (List.mem_cons_of_mem _ hx))
    simp [findIndex, hb, ih2]

theorem getElem?_append_cons_length {α : Type} (pre : List α) (a : α) (post : List α) :
    (pre ++ a :: post)[pre.length]? = some a := by
  induction pre with
  | nil => simp
  | cons b t ih => simpa using ih

theorem set_append_cons_length {α : Type} (pre : List α) (a : α) (post : List α) (b : α) :
    (pre ++ a :: post).set pre.length b = pre ++ b :: post := by
  induction pre with
  | nil => rfl
  | cons c t ih => simp

theorem replaceOrPush_match (pre : List Obj) (old : Obj) (post : List Obj) (t : Obj)
    (hpre : ∀ x ∈ pre, x.get "id" ≠ t.get "id") (h : old.get "id" = t.get "id") :
    replaceOrPush (pre ++ old :: post) t = pre ++ t :: post := by
  induction pre with
  | nil => simp [replaceOrPush_cons, h]
  | cons a l ih =>
    have ha : a.get "id" ≠ t.get "id" := hpre a (List.mem_cons_self _ _)
    have ih2 := ih (fun x hx => hpre x (List.mem_cons_of_mem _ hx))
    simp [replaceOrPush_cons, ha, ih2]

theorem replaceOrPush_no_match (list : List Obj) (t : Obj)
    (h : ∀ x ∈ list, x.get "id" ≠ t.get "id") : replaceOrPush list t = list ++ [t] := by
  induction list with
  | nil => rfl
  | cons a l ih =>
    have ha : a.get "id" ≠ t.get "id" := h a (List.mem_cons_self _ _)
    have ih2 := ih (fun x hx => h x (List.mem_cons_of_mem _ hx))
    simp [replaceOrPush_cons, ha, ih2]

/-- C22: `updateLocalTransaction(t)` upserts `t` by id into both transaction lists. Each of
the two lists afterwards is the list before with its first entry of id `t.id` replaced by
`t`, all other entries unchanged and in place, or is the list before followed by `t` when no
entry has that id; the accounts and the investment database are untouched. -/
theorem transaction_upsert_by_id (t : Obj) (st : Storage) :
    updateLocalTransaction t st
      = { st with
          bankDB := some
            { users := (st.bankDB.getD {}).users,
              transactions := replaceOrPush (st.bankDB.getD {}).transactions t },
          customerDB := some
            { customers := (st.customerDB.getD {}).customers,
              transactions := replaceOrPush (st.customerDB.getD {}).transactions t } } ∧
    (∀ (pre : List Obj) (old : Obj) (post : List Obj),
      (∀ x ∈ pre, x.get "id" ≠ t.get "id") → old.get "id" = t.get "id" →
      replaceOrPush (pre ++ old :: post) t = pre ++ t :: post) ∧
    (∀ list : List Obj, (∀ x ∈ list, x.get "id" ≠ t.get "id") →
      replaceOrPush list t = list ++ [t]) :=
  ⟨rfl, fun pre old post => replaceOrPush_match pre old post t,
    fun list => replaceOrPush_no_match list t⟩

/-- Witness of C22: the stored transaction with id 2 is replaced in place. -/
theorem transaction_upsert_by_id_witness :
    (∀ x ∈ [transaction 1 10], x.get "id" ≠ (transaction 2 99).get "id") ∧
    (transaction 2 20).get "id" = (transaction 2 99).get "id" ∧
    replaceOrPush ([transaction 1 10] ++ transaction 2 20 :: [transaction 3 30])
        (transaction 2 99)
      = [transaction 1 10] ++ transaction 2 99 :: [transaction 3 30] :=
  ⟨by decide, by decide,
    (transaction_upsert_by_id (transaction 2 99) {}).2.1 [transaction 1 10] (transaction 2 20)
      [transaction 3 30] (by decide) (by decide)⟩

/-- The fields of an account after the two conditional assignments of `updateLocalBalance`. -/
theorem assignBalances_get (user balanceData : Obj) (k : String) :
    (assignBalances user balanceData).get k
      = if k = "coinBalance" then
          (match balanceData.get "coinBalance" with
           | some v => some v
           | none => user.get k)
        else if k = "cashBalance" then
          (match balanceData.get "cashBalance" with
           | some v => some v
           | none => user.get k)
        else user.get k := by
  unfold assignBalances
  by_cases h1 : k = "coinBalance"
  · subst h1
    cases balanceData.get "coinBalance" <;> cases balanceData.get "cashBalance" <;>
      simp [Obj.get_set_same, Obj.get_set_other]
  · by_cases h2 : k = "cashBalance"
    · subst h2
      cases balanceData.get "coinBalance" <;> cases balanceData.get "cashBalance" <;>
        simp [Obj.get_set_same, Obj.get_set_other]
    · cases balanceData.get "coinBalance" <;> cases balanceData.get "cashBalance" <;>
        simp [h1, h2, Obj.get_set_other _ _ _ _ h1, Obj.get_set_other _ _ _ _ h2]

/-- C23: `updateLocalBalance` looks the payload's username up in the bank users. When an
account with that username exists, the first such account gets `coinBalance` overwritten
exactly when the payload carries `coinBalance` and `cashBalance` exactly when the payload
carries `cashBalance`; its other fields, the other accounts, the transactions, the customer
database and the investment database are unchanged. When no bank user has that username the
store is unchanged. -/
theorem balance_update_frame (balanceData : Obj) (st : Storage) :
    (∀ (pre : List Obj) (user : Obj) (post : List Obj),
      (st.bankDB.getD {}).users = pre ++ user :: post →
      (∀ x ∈ pre, x.get "username" ≠ balanceData.get "username") →
      user.get "username" = balanceData.get "username" →
      updateLocalBalance balanceData st
        = { st with
            bankDB := some
              { users := pre ++ assignBalances user balanceData :: post,
                transactions := (st.bankDB.getD {}).transactions } }) ∧
    (∀ (user : Obj) (k : String),
      (assignBalances user balanceData).get k
        = if k = "coinBalance" then
            (match balanceData.get "coinBalance" with
             | some v => some v
             | none => user.get k)
          else if k = "cashBalance" then
            (match balanceData.get "cashBalance" with
             | some v => some v
             | none => user.get k)
          else user.get k) ∧
    ((∀ x ∈ (st.bankDB.getD {}).users, x.get "username" ≠ balanceData.get "username") →
      updateLocalBalance balanceData st = st) := by
  refine ⟨?_, fun user k => assignBalances_get user balanceData k, ?_⟩
  · intro pre user post hu hpre hm
    have hf := findIndex_append_match
      (fun u : Obj => u.get "username" == balanceData.get "username") pre user post
      (fun x hx => by simpa using hpre x hx) (by simpa using hm)
    have hget : (pre ++ user :: post)[pre.length]? = some user :=
      getElem?_append_cons_length pre user post
    have hset : (pre ++ user :: post).set pre.length (assignBalances user balanceData)
        = pre ++ assignBalances user balanceData :: post :=
      set_append_cons_length pre user post _
    simp only [updateLocalBalance, hu, hf, hget, hset]
  · intro h
    have hf := findIndex_none
      (fun u : Obj => u.get "username" == balanceData.get "username") _
      (fun x hx => by simpa using h x hx)
    simp [updateLocalBalance, hf]

/-- Witness of C23: alice gets the new coin balance and keeps her e-mail address; bob and
the transaction are untouched. -/
theorem balance_update_frame_witness :
    (sampleStorage.bankDB.getD {}).users
      = [account "bob" 5] ++ accountWithEmail "alice" 1 "a@x" :: [] ∧
    (∀ x ∈ [account "bob" 5], x.get "username" ≠ (coinUpdate "alice" 9).get "username") ∧
    (accountWithEmail "alice" 1 "a@x").get "username" = (coinUpdate "alice" 9).get "username" ∧
    updateLocalBalance (coinUpdate "alice" 9) sampleStorage
      = { sampleStorage with
          bankDB := some
            { users := [account "bob" 5]
                ++ assignBalances (accountWithEmail "alice" 1 "a@x") (coinUpdate "alice" 9) :: [],
              transactions := (sampleStorage.bankDB.getD {}).transactions } } :=
  ⟨rfl, by decide, by decide,
    (balance_update_frame (coinUpdate "alice" 9) sampleStorage).1 [account "bob" 5]
      (accountWithEmail "alice" 1 "a@x") [] rfl (by decide) (by decide)⟩

/-! ## One record per key -/

theorem usernames_upsertByUsername (list : List Obj) (user : Obj) :
    usernames (upsertByUsername list user)
      = if user.get "username" ∈ usernames list then usernames list
        else usernames list ++ [user.get "username"] := by
  induction list with
  | nil => simp [upsertByUsername_nil, usernames]
  | cons a t ih =>
    rw [upsertByUsername_cons]
    by_cases h : a.get "username" = user.get "username"
    · have h2 := spread_username a user h
      simp [usernames, h, h2]
    · have h3 : ¬ user.get "username" = a.get "username" := fun e => h e.symm
      simp only [usernames] at ih
      simp only [usernames, if_neg h, List.map_cons, List.mem_cons, h3, false_or, ih]
      split <;> simp

theorem nodup_foldl_upsertByUsername (incoming list : List Obj) (h : (usernames list).Nodup) :
    (usernames (incoming.foldl upsertByUsername list)).Nodup := by
  induction incoming generalizing list with
  | nil => exact h
  | cons a t ih =>
    simp only [List.foldl_cons]
    apply ih
    rw [usernames_upsertByUsername]
    split
    · exact h
    · rename_i hm
      exact List.Nodup.append h (List.nodup_singleton _) (by simpa using hm)

theorem ids_pushIfAbsent (list : List Obj) (tx : Obj) :
    ids (pushIfAbsent list tx)
      = if tx.get "id" ∈ ids list then ids list else ids list ++ [tx.get "id"] := by
  rw [pushIfAbsent_eq]
  by_cases h : ∃ t ∈ list, t.get "id" = tx.get "id"
  · have h2 : tx.get "id" ∈ ids list := by
      obtain ⟨t, ht, he⟩ := h
      exact List.mem_map.2 ⟨t, ht, he⟩
    simp [h, h2]
  · have h2 : ¬ tx.get "id" ∈ ids list := by
      intro hm
      obtain ⟨t, ht, he⟩ := List.mem_map.1 hm
      exact h ⟨t, ht, he⟩
    simp [h, h2, ids]

theorem nodup_foldl_pushIfAbsent (incoming list : List Obj) (h : (ids list).Nodup) :
    (ids (incoming.foldl pushIfAbsent list)).Nodup := by
  induction incoming generalizing list with
  | nil => exact h
  | cons a t ih =>
    simp only [List.foldl_cons]
    apply ih
    rw [ids_pushIfAbsent]
    split
    · exact h
    · rename_i hm
      exact List.Nodup.append h (List.nodup_singleton _) (by simpa using hm)

theorem ids_replaceOrPush (list : List Obj) (tx : Obj) :
    ids (replaceOrPush list tx)
      = if tx.get "id" ∈ ids list then ids list else ids list ++ [tx.get "id"] := by
  induction list with
  | nil => simp [replaceOrPush_nil, ids]
  | cons a t ih =>
    rw [replaceOrPush_cons]
    by_cases h : a.get "id" = tx.get "id"
    · simp [ids, h]
    · have h3 : ¬ tx.get "id" = a.get "id" := fun e => h e.symm
      simp only [ids] at ih
      simp only [ids, if_neg h, List.map_cons, List.mem_cons, h3, false_or, ih]
      split <;> simp

theorem map_set_of_same_image {α β : Type} (f : α → β) (l : List α) (i : Nat) (u x : α)
    (hu : l[i]? = some u) (hx : f x = f u) : (l.set i x).map f = l.map f := by
  induction l generalizing i with
  | nil => simp
  | cons a t ih =>
    cases i with
    | zero =>
      simp only [List.getElem?_cons_zero, Option.some.injEq] at hu
      subst hu
      simp [hx]
    | succ j =>
      simp only [List.getElem?_cons_succ] at hu
      simp [ih j hu]

theorem updateLocalUsers_keeps_keys (users : List Obj) (st : Storage)
    (h : OneRecordPerKey st) : OneRecordPerKey (updateLocalUsers users st) := by
  obtain ⟨h1, h2, h3, h4, h5⟩ := h
  exact ⟨nodup_foldl_upsertByUsername users _ h1, nodup_foldl_upsertByUsername users _ h2,
    h3, h4, h5⟩

theorem updateLocalTransactions_keeps_keys (transactions : List Obj) (st : Storage)
    (h : OneRecordPerKey st) : OneRecordPerKey (updateLocalTransactions transactions st) := by
  obtain ⟨h1, h2, h3, h4, h5⟩ := h
  refine ⟨h1, h2, h3, ?_, ?_⟩
  · simp only [updateLocalTransactions, foldl_pushIfAbsent_pair, Option.getD_some]
    exact nodup_foldl_pushIfAbsent transactions _ h4
  · simp only [updateLocalTransactions, foldl_pushIfAbsent_pair, Option.getD_some]
    exact nodup_foldl_pushIfAbsent transactions _ h5

theorem updateLocalInvestments_keeps_keys (investments : List Obj) (st : Storage)
    (h : OneRecordPerKey st) : OneRecordPerKey (updateLocalInvestments investments st) := by
  obtain ⟨h1, h2, h3, h4, h5⟩ := h
  exact ⟨h1, h2, nodup_foldl_upsertByUsername investments _ h3, h4, h5⟩

theorem merge_step_keeps_keys (o : Option (List Obj)) (f : List Obj → Storage → Storage)
    (st : Storage) (hf : ∀ l x, OneRecordPerKey x → OneRecordPerKey (f l x))
    (h : OneRecordPerKey st) :
    OneRecordPerKey
      (match o with
       | some l => if l.length > 0 then f l st else st
       | none => st) := by
  cases o with
  | none => exact h
  | some l =>
    simp only
    split
    · exact hf l st h
    · exact h

theorem updateLocalData_keeps_keys (remoteData : Message) (st : Storage)
    (h : OneRecordPerKey st) : OneRecordPerKey (updateLocalData remoteData st) :=
  merge_step_keeps_keys remoteData.investments updateLocalInvestments _
    updateLocalInvestments_keeps_keys
    (merge_step_keeps_keys remoteData.transactions updateLocalTransactions _
      updateLocalTransactions_keeps_keys
      (merge_step_keeps_keys remoteData.users updateLocalUsers st
        updateLocalUsers_keeps_keys h))

theorem updateLocalTransaction_keeps_keys (t : Obj) (st : Storage) (h : OneRecordPerKey st) :
    OneRecordPerKey (updateLocalTransaction t st) := by
  obtain ⟨h1, h2, h3, h4, h5⟩ := h
  refine ⟨h1, h2, h3, ?_, ?_⟩
  · simp only [updateLocalTransaction, Option.getD_some]
    rw [ids_replaceOrPush]
    split
    · exact h4
    · rename_i hm
      exact List.Nodup.append h4 (List.nodup_singleton _) (by simpa using hm)
  · simp only [updateLocalTransaction, Option.getD_some]
    rw [ids_replaceOrPush]
    split
    · exact h5
    · rename_i hm
      exact List.Nodup.append h5 (List.nodup_singleton _) (by simpa using hm)

theorem updateLocalBalance_keeps_keys (balanceData : Obj) (st : Storage)
    (h : OneRecordPerKey st) : OneRecordPerKey (updateLocalBalance balanceData st) := by
  cases hf : findIndex (fun u => u.get "username" == balanceData.get "username")
      (st.bankDB.getD {}).users with
  | none =>
    have h1 : updateLocalBalance balanceData st = st := by simp [updateLocalBalance, hf]
    rw [h1]; exact h
  | some i =>
    obtain ⟨u, hu, -⟩ := findIndex_some _ _ _ hf
    have h1 : updateLocalBalance balanceData st
        = { st with bankDB := some { (st.bankDB.getD {}) with
              users := (st.bankDB.getD {}).users.set i (assignBalances u balanceData) } } := by
      simp [updateLocalBalance, hf, hu]
    obtain ⟨k1, k2, k3, k4, k5⟩ := h
    rw [h1]
    refine ⟨?_, k2, k3, k4, k5⟩
    simp only [Option.getD_some, usernames]
    rw [map_set_of_same_image (fun u => u.get "username") _ i u _ hu
      (assignBalances_username u balanceData)]
    exact k1

/-- C25: one record per key is an invariant of the store. If the bank users, the customers
and the investors each hold pairwise distinct usernames and the two transaction lists each
hold pairwise distinct ids, then the same holds after the merge of any snapshot (also one
that repeats a key), after `updateLocalData` of any object, and after each of
`updateLocalTransaction`, `updateLocalBalance` and `updateLocalUser`. -/
theorem one_record_per_key_invariant (st : Storage) (h : OneRecordPerKey st) :
    (∀ snapshot, OneRecordPerKey (mergeSnapshot snapshot st)) ∧
    (∀ remoteData, OneRecordPerKey (updateLocalData remoteData st)) ∧
    (∀ t, OneRecordPerKey (updateLocalTransaction t st)) ∧
    (∀ b, OneRecordPerKey (updateLocalBalance b st)) ∧
    (∀ u, OneRecordPerKey (updateLocalUser u st)) :=
  ⟨fun _ => updateLocalData_keeps_keys _ st h, fun r => updateLocalData_keeps_keys r st h,
    fun t => updateLocalTransaction_keeps_keys t st h,
    fun b => updateLocalBalance_keeps_keys b st h,
    fun u => updateLocalUsers_keeps_keys [u] st h⟩

/-- Witness of C25: a snapshot that repeats a username and an id is merged into the sample
storage. -/
theorem one_record_per_key_invariant_witness :
    OneRecordPerKey sampleStorage ∧
    OneRecordPerKey (mergeSnapshot repeatingSnapshot sampleStorage) :=
  ⟨by decide, (one_record_per_key_invariant sampleStorage (by decide)).1 repeatingSnapshot⟩

/-- C26, evaluation of the code: the exported transactions are those of the bank database
alone. A store whose customer database holds an account and the transaction with id 7 exports
the account but no transaction. -/
theorem customer_transactions_not_exported :
    (∀ st, (getLocalData st).transactions = (st.bankDB.getD {}).transactions) ∧
    (customerOnlyStorage.customerDB.getD {}).transactions = [transaction 7 70] ∧
    (getLocalData customerOnlyStorage).users = [account "alice" 2] ∧
    (getLocalData customerOnlyStorage).transactions = [] ∧
    transaction 7 70 ∉ (getLocalData customerOnlyStorage).transactions := by
  refine ⟨?_, by decide, by decide, by decide, by decide⟩
  intro st
  cases hb : st.bankDB <;> cases hi : st.investmentDB <;> cases hc : st.customerDB <;>
    simp [getLocalData, hb, hi, hc]

/-- C27, evaluation of the code: for every platform and every message, when the platform is
marked connected, the message is queued for it and no adapter ever produces a response,
`processMessageQueue` does not return: whatever the bound, the loop is still running after
that many sends. -/
theorem drain_does_not_terminate (platform : Platform) (message : Message) (fuel : Nat) :
    (processMessageQueue fuel (fun _ => silentEnv) (stuckOn platform message)).finished
      = false ∧
    (processMessageQueue fuel (fun _ => silentEnv) (stuckOn platform message)).sends.length
      = fuel := by
  have h := processMessageQueue_stuck fuel (fun _ => silentEnv) (stuckOn platform message)
    { platform := platform, message := message, timestamp := "t", attempts := 0 } rfl
    (by simp [stuckOn, Connections.get_set_at])
    (fun _ n m => silentEnv_fails n platform m)
  exact ⟨h.1, h.2.1⟩

/-! ## Failed syncs and the first adapter -/

theorem syncWithPlatform_without_response (env : SyncEnv) (platform : Platform) (s : Node)
    (hc : (s.connections.get platform).connected = true)
    (hfail : firstResponse env.send s platform (syncRequest env s) = none) :
    (syncWithPlatform env platform s).node
      = queueMessage env.send.queuedAt platform (stamp env.send s (syncRequest env s)) s ∧
    (syncWithPlatform env platform s).send.value = .ok none := by
  obtain ⟨hn, hs⟩ := syncWithPlatform_connected env platform s hc
  rw [hfail] at hn
  refine ⟨hn, ?_⟩
  rw [hs, (sendMessage_connected env.send platform (syncRequest env s) s hc).1, hfail]

theorem syncTimes_without_response (k : Nat) (env : Nat → SyncEnv) (platform : Platform)
    (s : Node) (hc : (s.connections.get platform).connected = true)
    (hfail : ∀ i n m, firstResponse (env i).send n platform m = none) :
    (syncTimes k env platform s).messageQueue.length = s.messageQueue.length + k ∧
    (syncTimes k env platform s).storage = s.storage ∧
    (syncTimes k env platform s).connections = s.connections := by
  induction k generalizing env s with
  | zero => simp [syncTimes]
  | succ j ih =>
    obtain ⟨hn, -⟩ := syncWithPlatform_without_response (env 0) platform s hc (hfail 0 _ _)
    have hc2 : ((syncWithPlatform (env 0) platform s).node.connections.get platform).connected
        = true := by rw [hn]; exact hc
    obtain ⟨i1, i2, i3⟩ := ih (fun i => env (i + 1)) (syncWithPlatform (env 0) platform s).node
      hc2 (fun i => hfail (i + 1))
    simp only [syncTimes]
    rw [i1, i2, i3, hn]
    simp [queueMessage]
    omega

/-- C29: a sync that gets no response changes nothing but the queue. For a connected peer
for which no adapter produces a response, `syncWithPlatform` does not throw, leaves the
stores and every connection record (so the `lastSync` of the peer) unchanged, and appends
exactly one entry, holding the stamped `SYNC` message with `attempts = 0`, to the queue; `k`
consecutive failed syncs make the queue `k` entries longer and change nothing else of the
stores and connection records. -/
theorem failed_sync_only_queues (k : Nat) (env : Nat → SyncEnv) (platform : Platform)
    (s : Node) (hc : (s.connections.get platform).connected = true)
    (hfail : ∀ i n m, firstResponse (env i).send n platform m = none) :
    (syncWithPlatform (env 0) platform s).send.value = .ok none ∧
    (syncWithPlatform (env 0) platform s).node.storage = s.storage ∧
    (syncWithPlatform (env 0) platform s).node.connections = s.connections ∧
    (syncWithPlatform (env 0) platform s).node.messageQueue
      = s.messageQueue ++
        [{ platform := platform, message := stamp (env 0).send s (syncRequest (env 0) s),
           timestamp := (env 0).send.queuedAt, attempts := 0 }] ∧
    (syncTimes k env platform s).messageQueue.length = s.messageQueue.length + k ∧
    (syncTimes k env platform s).storage = s.storage ∧
    (syncTimes k env platform s).connections = s.connections := by
  obtain ⟨hn, hv⟩ := syncWithPlatform_without_response (env 0) platform s hc (hfail 0 _ _)
  obtain ⟨t1, t2, t3⟩ := syncTimes_without_response k env platform s hc hfail
  refine ⟨hv, ?_, ?_, ?_, t1, t2, t3⟩
  · rw [hn]; rfl
  · rw [hn]; rfl
  · rw [hn]; rfl

/-- Witness of C29: three failed syncs of the bank node make its queue three entries
longer. -/
theorem failed_sync_only_queues_witness :
    (bankNode.connections.get .customer).connected = true ∧
    (∀ (i : Nat) n m, firstResponse ((fun _ => silentSyncEnv) i).send n .customer m = none) ∧
    (syncTimes 3 (fun _ => silentSyncEnv) .customer bankNode).messageQueue.length
      = bankNode.messageQueue.length + 3 ∧
    (syncTimes 3 (fun _ => silentSyncEnv) .customer bankNode).storage = bankNode.storage :=
  have h := failed_sync_only_queues 3 (fun _ => silentSyncEnv) .customer bankNode (by decide)
    (fun _ n m => silentEnv_fails n .customer m)
  ⟨by decide, fun _ n m => silentEnv_fails n .customer m, h.2.2.2.2.1, h.2.2.2.2.2.1⟩

/-- C30: the PostMessage adapter never delivers. `findPlatformWindow` finds no window for any
platform, so `sendViaPostMessage` is rejected for every platform and message, whatever would
arrive on the window (nothing is posted); and a call of `sendMessage` either returns `null`
or returns the response of an adapter other than the first one of the priority order. -/
theorem post_message_never_delivers (env : SendEnv) (platform : Platform) (message : Message)
    (s : Node) :
    findPlatformWindow platform = none ∧
    sendViaPostMessage env platform message = .rejected ∧
    (∀ inbox, sendViaPostMessage { env with windowInbox := inbox } platform message
      = .rejected) ∧
    adapterOrder.head? = some .postMessage ∧
    (runAdapter env s platform (stamp env s message) .postMessage).response = none ∧
    ((sendMessage env platform message s).value = .ok none ∨
      ∃ a r, a ≠ Adapter.postMessage ∧
        (runAdapter env s platform (stamp env s message) a).response = some r ∧
        (sendMessage env platform message s).value = .ok (some r)) := by
  refine ⟨rfl, sendViaPostMessage_rejected env platform message,
    fun inbox => sendViaPostMessage_rejected _ platform message, rfl, ?_, ?_⟩
  · simp [runAdapter, sendViaPostMessage_rejected, Outcome.response]
  · cases hc : (s.connections.get platform).connected with
    | false => left; simp [sendMessage, hc]
    | true =>
      obtain ⟨hv, -, -, -⟩ := sendMessage_connected env platform message s hc
      cases hf : firstResponse env s platform message with
      | none => left; rw [hv, hf]
      | some r =>
        right
        have hf2 := hf
        simp only [firstResponse] at hf2
        obtain ⟨a, -, ha⟩ := List.exists_of_findSome?_eq_some hf2
        refine ⟨a, r, ?_, ha, by rw [hv, hf]⟩
        intro e
        subst e
        simp [runAdapter, sendViaPostMessage_rejected, Outcome.response] at ha

end NetworkBridge
